import Mathlib

/-!
Verification development for the zFlask repository.

It shallowly embeds the application/request context machinery
(src/flask/ctx.py and src/flask/globals.py), the request dispatch engine
(src/flask/app.py), blueprint and route registration
(src/flask/sansio/app.py, src/flask/sansio/blueprints.py,
src/flask/sansio/scaffold.py), the configuration object
(src/flask/config.py) and the bundled demo application
(src/app.py and src/blue/auth.py), and proves the specified properties
about those embeddings.

Modelling conventions:
* Python objects are identified by natural-number ids; object heaps are
  Lean lists indexed by allocation order.
* Python exceptions are explicit error values; an operation that can
  raise returns its mutated state together with an optional error,
  mirroring the fact that a raise does not undo earlier mutations.
* Bodies of user-supplied callables (view functions, hooks, signal
  subscribers, teardown functions) are opaque; where the control flow
  depends on their results those results are behaviour parameters, and
  where only the fact that they ran matters an event is emitted.
* Python strings that the code manipulates are modelled as lists of
  characters, so that strip/concatenation reasoning stays elementary.
-/

namespace ZFlask

/-- Association list lookup; the model of Python dict indexing
(first, hence only, binding of a key wins). -/
def alGet {α β : Type} [DecidableEq α] : List (α × β) → α → Option β
  | [], _ => none
  | (k, v) :: rest, key => if k = key then some v else alGet rest key

/-- Association list update: replaces the value of an existing key in
place, otherwise appends a new binding, matching Python dict assignment
together with dict insertion order. -/
def alSet {α β : Type} [DecidableEq α] : List (α × β) → α → β → List (α × β)
  | [], key, v => [(key, v)]
  | (k, w) :: rest, key, v =>
    if k = key then (k, v) :: rest else (k, w) :: alSet rest key v

theorem alGet_alSet_self {α β : Type} [DecidableEq α]
    (l : List (α × β)) (k : α) (v : β) : alGet (alSet l k v) k = some v := by
  induction l with
  | nil => simp [alGet, alSet]
  | cons hd tl ih =>
    by_cases h : hd.1 = k
    · simp [alGet, alSet, h]
    · simp [alGet, alSet, h, ih]

theorem alGet_alSet_ne {α β : Type} [DecidableEq α]
    (l : List (α × β)) (k k' : α) (v : β) (h : k ≠ k') :
    alGet (alSet l k v) k' = alGet l k' := by
  induction l with
  | nil => simp [alGet, alSet, h]
  | cons hd tl ih =>
    by_cases hh : hd.1 = k
    · simp [alGet, alSet, hh, h]
    · simp [alGet, alSet, hh, ih]

/-! ## Context objects (src/flask/ctx.py, src/flask/globals.py)

The two module-level context variables of globals.py,
flask.app_ctx (called cvApp below) and flask.request_ctx (cvReq),
each hold at most one value: the currently active context.  A
ContextVar token, as returned by ContextVar.set, records the value the
variable held before that set, and ContextVar.reset restores exactly
that recorded value; tokens are therefore modelled as the saved
previous value (none meaning the variable was unset). -/

/-- Observable lifecycle events, emitted in program order.  A signal
send or a call into user-supplied teardown/hook machinery is modelled
by emitting the corresponding event. -/
inductive Ev
  | appctxPushed
  | appctxPopped
  | teardownAppctx
  | teardownRequest
  | requestStarted
  | preprocessRequest
  | dispatchRequest
  | handleUserException
  | finalizeRequest
  | requestFinished
  | gotRequestException
deriving DecidableEq

/-- Python exceptions relevant to the embedded code, by identity.
exc n is an arbitrary user-level Exception; lookupError is the
LookupError from ContextVar.get on an unset variable; indexError is the
IndexError from list.pop on an empty list; wrongAppCtx and wrongReqCtx
are the AssertionError raised with the messages
Popped wrong app context and Popped wrong request context. -/
inductive Err
  | exc (n : Nat)
  | lookupError
  | indexError
  | wrongAppCtx
  | wrongReqCtx
deriving DecidableEq

/-- A session object: either a session opened by the session interface
(open_session) or the null session produced by make_null_session. -/
inductive Sess
  | real (n : Nat)
  | nullSession
deriving DecidableEq

/-- An AppContext object (ctx.py, class AppContext): the owning app, the
identity of its fresh g object (app_ctx_globals_class instance), and its
list of ContextVar tokens (the field named by the source as a list of
tokens for the app context variable); each token stores the value cvApp
held before the corresponding push. -/
structure AppCtxObj where
  app : Nat
  gId : Nat
  tokens : List (Option Nat)
deriving DecidableEq

/-- A RequestContext object (ctx.py, class RequestContext): owning app,
the request object identity, the session attribute, and the token list
whose entries pair the saved previous cvReq value with the index of the
implicitly pushed AppContext when there was one. -/
structure ReqCtxObj where
  app : Nat
  req : Nat
  sess : Option Sess
  tokens : List (Option Nat × Option Nat)
deriving DecidableEq

/-- Global state of one task: heaps of context objects, the two context
variables, an allocation counter for g objects, and the event trace. -/
@[ext]
structure World where
  apps : List AppCtxObj
  reqs : List ReqCtxObj
  cvApp : Option Nat
  cvReq : Option Nat
  nextG : Nat
  events : List Ev
deriving DecidableEq

def World.empty : World := ⟨[], [], none, none, 0, []⟩

/-- Appends an event to the trace (chronological order, oldest first). -/
def emit (e : Ev) (w : World) : World := { w with events := w.events ++ [e] }

/-- Default used to totalize heap lookups; all theorems constrain
indices so that it is never reached. -/
def dfltApp : AppCtxObj := ⟨0, 0, []⟩

def dfltReq : ReqCtxObj := ⟨0, 0, none, []⟩

/-- AppContext construction via Flask.app_context (app.py): a fresh g
object is allocated (app_ctx_globals_class()); url_adapter is not
modelled.  Returns the heap index of the new object. -/
def appContextNew (w : World) (app : Nat) : World × Nat :=
  ({ w with apps := w.apps ++ [⟨app, w.nextG, []⟩], nextG := w.nextG + 1 },
   w.apps.length)

/-- AppContext.push (ctx.py): appends the token from setting cvApp to
this context, then sends appcontext_pushed. -/
def appCtxPush (w : World) (i : Nat) : World :=
  let obj := w.apps.getD i dfltApp
  let w := { w with
    apps := w.apps.set i { obj with tokens := obj.tokens ++ [w.cvApp] },
    cvApp := some i }
  emit .appctxPushed w

/-- AppContext.pop (ctx.py).  If this is the outermost push of the
object (token list of length one) the app teardown functions run
(do_teardown_appcontext, modelled by the teardownAppctx event).  Then,
in the finally block, the current value of cvApp is read (LookupError
when unset), the last token is popped (IndexError when empty) and cvApp
is reset to it.  Popping a context that is not the current one raises
the AssertionError Popped wrong app context, after the reset already
happened; otherwise appcontext_popped is sent. -/
def appCtxPop (w : World) (i : Nat) : World × Option Err :=
  let obj := w.apps.getD i dfltApp
  let w1 := if obj.tokens.length == 1 then emit .teardownAppctx w else w
  match w1.cvApp with
  | none => (w1, some .lookupError)
  | some k =>
    match obj.tokens.getLast? with
    | none => (w1, some .indexError)
    | some tok =>
      let w2 := { w1 with
        apps := w1.apps.set i { obj with tokens := obj.tokens.dropLast },
        cvApp := tok }
      if k = i then (emit .appctxPopped w2, none)
      else (w2, some .wrongAppCtx)

/-- RequestContext construction via Flask.request_context (app.py):
records the app and the request object; session starts out as the
value passed to the constructor (none on the wsgi path); url_adapter
and routing are not modelled.  Returns the heap index. -/
def requestContextNew (w : World) (app req : Nat) (sess : Option Sess) :
    World × Nat :=
  ({ w with reqs := w.reqs ++ [⟨app, req, sess, []⟩] }, w.reqs.length)

/-- The condition of RequestContext.push under which a fresh AppContext
is pushed: the app context variable is unset, or the active AppContext
belongs to a different app (ctx.py line 352). -/
def needsFreshAppCtx (w : World) (app : Nat) : Bool :=
  match w.cvApp with
  | none => true
  | some k => (w.apps.getD k dfltApp).app != app

/-- RequestContext.push (ctx.py).  If no app context is active, or the
active one belongs to a different app, a fresh AppContext for this app
is created and pushed, and remembered in the token pair; otherwise none
is remembered.  Then cvReq is set to this context and the token
recorded.  If the session attribute is still unset, the session
interface opens a session (openRes models the result of open_session);
when that returns none, make_null_session supplies the null session.
match_request is not modelled. -/
def openedSession (sess : Option Sess) (openRes : Option Nat) : Option Sess :=
  match sess with
  | some s => some s
  | none =>
    match openRes with
    | some n => some (.real n)
    | none => some .nullSession

/-- RequestContext.push proper; see the comment on openedSession above
for the session-opening step. -/
def reqCtxPush (w : World) (j : Nat) (openRes : Option Nat) : World :=
  let obj := w.reqs.getD j dfltReq
  let pushed :=
    if needsFreshAppCtx w obj.app then
      let alloc := appContextNew w obj.app
      (appCtxPush alloc.1 alloc.2, some alloc.2)
    else (w, (none : Option Nat))
  let w1 := pushed.1
  { w1 with
    reqs := w1.reqs.set j
      { obj with
        tokens := obj.tokens ++ [(w1.cvReq, pushed.2)],
        sess := openedSession obj.sess openRes },
    cvReq := some j }

/-- RequestContext.pop (ctx.py).  When this is the outermost push
(clear_request), do_teardown_request runs and the request is closed
(teardownRequest event).  In the finally block the current cvReq is
read (LookupError when unset), the last token pair is popped
(IndexError when empty) and cvReq is reset; the implicitly pushed
AppContext, when recorded, is popped, and an exception from that pop
propagates before the identity check; finally popping a context that is
not the current one raises the AssertionError Popped wrong request
context.  (The werkzeug.request environ marker is not modelled.) -/
def reqCtxPop (w : World) (j : Nat) : World × Option Err :=
  let obj := w.reqs.getD j dfltReq
  let clear : Bool := obj.tokens.length == 1
  let w1 := if clear then emit .teardownRequest w else w
  match w1.cvReq with
  | none => (w1, some .lookupError)
  | some k =>
    match obj.tokens.getLast? with
    | none => (w1, some .indexError)
    | some tokPair =>
      let w2 := { w1 with
        reqs := w1.reqs.set j { obj with tokens := obj.tokens.dropLast },
        cvReq := tokPair.1 }
      let stepped :=
        match tokPair.2 with
        | some i => appCtxPop w2 i
        | none => (w2, none)
      match stepped.2 with
      | some e => (stepped.1, some e)
      | none =>
        if k = j then (stepped.1, none) else (stepped.1, some .wrongReqCtx)

/-! ## Globals proxies (src/flask/globals.py)

Each proxy reads the corresponding context variable; when it is unset
the proxy raises the unbound-context RuntimeError carrying the
Working outside of ... context message. -/

/-- Unbound-proxy errors (the RuntimeError messages of globals.py). -/
inductive PErr
  | unboundApp
  | unboundReq
deriving DecidableEq

/-- The current_app proxy: the app attribute of the active AppContext. -/
def current_app (w : World) : Except PErr Nat :=
  match w.cvApp with
  | none => .error .unboundApp
  | some i => .ok (w.apps.getD i dfltApp).app

/-- The g proxy: the g attribute (by object identity) of the active
AppContext. -/
def g (w : World) : Except PErr Nat :=
  match w.cvApp with
  | none => .error .unboundApp
  | some i => .ok (w.apps.getD i dfltApp).gId

/-- The request proxy: the request attribute of the active
RequestContext. -/
def request (w : World) : Except PErr Nat :=
  match w.cvReq with
  | none => .error .unboundReq
  | some j => .ok (w.reqs.getD j dfltReq).req

/-- The session proxy: the session attribute of the active
RequestContext. -/
def session (w : World) : Except PErr (Option Sess) :=
  match w.cvReq with
  | none => .error .unboundReq
  | some j => .ok (w.reqs.getD j dfltReq).sess

/-! ## Elementary facts about heap updates and the context operations -/

theorem getD_set_self {α : Type} (l : List α) (i : Nat) (a d : α)
    (h : i < l.length) : (l.set i a).getD i d = a := by
  simp [List.getD_eq_getElem?_getD, List.getElem?_set_self h]

theorem getD_set_ne {α : Type} (l : List α) (i j : Nat) (a d : α)
    (h : i ≠ j) : (l.set i a).getD j d = l.getD j d := by
  simp [List.getD_eq_getElem?_getD, List.getElem?_set_ne h]

theorem getD_concat_length {α : Type} (l : List α) (a d : α) :
    (l ++ [a]).getD l.length d = a := by
  simp [List.getD_eq_getElem?_getD, List.getElem?_concat_length]

theorem getD_append_left {α : Type} (l l2 : List α) (i : Nat) (d : α)
    (h : i < l.length) : (l ++ l2).getD i d = l.getD i d := by
  simp [List.getD_eq_getElem?_getD, List.getElem?_append_left h]

@[simp] theorem emit_cvApp (e : Ev) (w : World) : (emit e w).cvApp = w.cvApp := rfl

@[simp] theorem emit_cvReq (e : Ev) (w : World) : (emit e w).cvReq = w.cvReq := rfl

@[simp] theorem emit_apps (e : Ev) (w : World) : (emit e w).apps = w.apps := rfl

@[simp] theorem emit_reqs (e : Ev) (w : World) : (emit e w).reqs = w.reqs := rfl

theorem appCtxPush_cvApp (w : World) (i : Nat) :
    (appCtxPush w i).cvApp = some i := rfl

theorem appCtxPush_apps (w : World) (i : Nat) :
    (appCtxPush w i).apps = w.apps.set i
      { w.apps.getD i dfltApp with
        tokens := (w.apps.getD i dfltApp).tokens ++ [w.cvApp] } := rfl

theorem appCtxPush_cvReq (w : World) (i : Nat) :
    (appCtxPush w i).cvReq = w.cvReq := rfl

theorem appCtxPush_reqs (w : World) (i : Nat) :
    (appCtxPush w i).reqs = w.reqs := rfl

/-- Popping an app context right after pushing it succeeds, restores the
app context variable to its previous value, and restores the token list
of the popped object. -/
theorem appPush_pop_frame (w : World) (i : Nat) (hi : i < w.apps.length) :
    (appCtxPop (appCtxPush w i) i).2 = none ∧
    (appCtxPop (appCtxPush w i) i).1.cvApp = w.cvApp ∧
    (appCtxPop (appCtxPush w i) i).1.apps.getD i dfltApp
      = w.apps.getD i dfltApp := by
  have h1 := appCtxPush_cvApp w i
  have h2 : (appCtxPush w i).apps.getD i dfltApp
      = { w.apps.getD i dfltApp with
          tokens := (w.apps.getD i dfltApp).tokens ++ [w.cvApp] } := by
    rw [appCtxPush_apps]
    exact getD_set_self _ _ _ _ hi
  have h3 : ∀ X : AppCtxObj,
      ((appCtxPush w i).apps.set i X).getD i dfltApp = X := by
    intro X
    refine getD_set_self _ _ _ _ ?_
    rw [appCtxPush_apps]
    simpa using hi
  simp only [appCtxPop, h2, apply_ite World.cvApp, apply_ite World.apps,
    emit_cvApp, emit_apps, ite_self, h1, List.getLast?_concat,
    List.dropLast_concat]
  refine ⟨rfl, rfl, ?_⟩
  exact h3 _

/-- Popping an app context that is not the current one fails with the
Popped wrong app context AssertionError, after cvApp has already been
reset to the token of the popped object. -/
theorem appPop_wrong_ctx (w : World) (i k : Nat) (t : Option Nat)
    (hcv : w.cvApp = some k) (hne : k ≠ i)
    (htok : (w.apps.getD i dfltApp).tokens.getLast? = some t) :
    (appCtxPop w i).2 = some .wrongAppCtx ∧ (appCtxPop w i).1.cvApp = t := by
  simp only [appCtxPop, apply_ite World.cvApp, emit_cvApp, ite_self, hcv, htok]
  simp [hne]

theorem reqCtxPush_cvReq (w : World) (j : Nat) (o : Option Nat) :
    (reqCtxPush w j o).cvReq = some j := rfl

/-- Explicit form of RequestContext.push when a fresh AppContext is
needed: the new AppContext (holding one token, the saved previous
cvApp) is appended to the heap and becomes the active app context, and
the pushed request context records it in its token pair. -/
theorem reqCtxPush_eq_fresh (w : World) (j : Nat) (o : Option Nat)
    (h : needsFreshAppCtx w (w.reqs.getD j dfltReq).app = true) :
    reqCtxPush w j o =
      { apps := w.apps ++
          [⟨(w.reqs.getD j dfltReq).app, w.nextG, [w.cvApp]⟩],
        reqs := w.reqs.set j
          { w.reqs.getD j dfltReq with
            tokens := (w.reqs.getD j dfltReq).tokens ++
              [(w.cvReq, some w.apps.length)],
            sess := openedSession (w.reqs.getD j dfltReq).sess o },
        cvApp := some w.apps.length,
        cvReq := some j,
        nextG := w.nextG + 1,
        events := w.events ++ [.appctxPushed] } := by
  have hF : ((w.apps ++ [(⟨(w.reqs.getD j dfltReq).app, w.nextG, []⟩ :
      AppCtxObj)]).getD w.apps.length dfltApp) =
      ⟨(w.reqs.getD j dfltReq).app, w.nextG, []⟩ := getD_concat_length _ _ _
  simp only [reqCtxPush, h, if_true, appContextNew, appCtxPush, emit, hF]
  ext <;> simp [List.set_append_right]

/-- Explicit form of RequestContext.push when the active app context
already belongs to this app: no AppContext is pushed and the token pair
records none. -/
theorem reqCtxPush_eq_stale (w : World) (j : Nat) (o : Option Nat)
    (h : needsFreshAppCtx w (w.reqs.getD j dfltReq).app = false) :
    reqCtxPush w j o =
      { apps := w.apps,
        reqs := w.reqs.set j
          { w.reqs.getD j dfltReq with
            tokens := (w.reqs.getD j dfltReq).tokens ++ [(w.cvReq, none)],
            sess := openedSession (w.reqs.getD j dfltReq).sess o },
        cvApp := w.cvApp,
        cvReq := some j,
        nextG := w.nextG,
        events := w.events } := by
  simp only [reqCtxPush, h, if_false, Bool.false_eq_true]

/-- A balanced RequestContext push/pop pair succeeds, restores both
context variables to their previous values, and leaves every app
context object that existed before the push unchanged. -/
theorem reqPush_pop_frame (w : World) (j : Nat) (o : Option Nat)
    (hj : j < w.reqs.length) :
    (reqCtxPop (reqCtxPush w j o) j).2 = none ∧
    (reqCtxPop (reqCtxPush w j o) j).1.cvApp = w.cvApp ∧
    (reqCtxPop (reqCtxPush w j o) j).1.cvReq = w.cvReq ∧
    ∀ idx, idx < w.apps.length →
      (reqCtxPop (reqCtxPush w j o) j).1.apps.getD idx dfltApp
        = w.apps.getD idx dfltApp := by
  by_cases h : needsFreshAppCtx w (w.reqs.getD j dfltReq).app
  · rw [reqCtxPush_eq_fresh w j o h]
    have hobj : ((w.reqs.set j
        { w.reqs.getD j dfltReq with
          tokens := (w.reqs.getD j dfltReq).tokens ++
            [(w.cvReq, some w.apps.length)],
          sess := openedSession (w.reqs.getD j dfltReq).sess o }).getD j
        dfltReq) =
        { w.reqs.getD j dfltReq with
          tokens := (w.reqs.getD j dfltReq).tokens ++
            [(w.cvReq, some w.apps.length)],
          sess := openedSession (w.reqs.getD j dfltReq).sess o } :=
      getD_set_self _ _ _ _ hj
    have hF : ((w.apps ++ [(⟨(w.reqs.getD j dfltReq).app, w.nextG,
        [w.cvApp]⟩ : AppCtxObj)]).getD w.apps.length dfltApp) =
        ⟨(w.reqs.getD j dfltReq).app, w.nextG, [w.cvApp]⟩ :=
      getD_concat_length _ _ _
    have hsetF : ∀ X : AppCtxObj,
        ((w.apps ++ [(⟨(w.reqs.getD j dfltReq).app, w.nextG,
          [w.cvApp]⟩ : AppCtxObj)]).set w.apps.length X) = w.apps ++ [X] := by
      intro X
      rw [List.set_append_right _ _ (le_refl _)]
      simp
    simp only [reqCtxPop, hobj, List.getLast?_concat, List.dropLast_concat,
      apply_ite World.cvReq, apply_ite World.apps, apply_ite World.reqs,
      emit_cvReq, emit_apps, emit_reqs, ite_self, appCtxPop, hF, hsetF,
      List.getLast?_singleton, List.length_singleton, List.dropLast_single,
      beq_self_eq_true, if_true, apply_ite World.cvApp, emit_cvApp]
    refine ⟨by trivial, by trivial, by trivial, ?_⟩
    intro idx hidx
    exact getD_append_left _ _ _ _ hidx
  · rw [reqCtxPush_eq_stale w j o (by simpa using h)]
    have hobj : ((w.reqs.set j
        { w.reqs.getD j dfltReq with
          tokens := (w.reqs.getD j dfltReq).tokens ++ [(w.cvReq, none)],
          sess := openedSession (w.reqs.getD j dfltReq).sess o }).getD j
        dfltReq) =
        { w.reqs.getD j dfltReq with
          tokens := (w.reqs.getD j dfltReq).tokens ++ [(w.cvReq, none)],
          sess := openedSession (w.reqs.getD j dfltReq).sess o } :=
      getD_set_self _ _ _ _ hj
    simp only [reqCtxPop, hobj, List.getLast?_concat, List.dropLast_concat,
      apply_ite World.cvReq, apply_ite World.apps, apply_ite World.reqs,
      apply_ite World.cvApp, emit_cvApp, emit_cvReq, emit_apps, emit_reqs,
      ite_self, eq_self_iff_true, if_true]
    exact ⟨by trivial, by trivial, by trivial, fun idx _ => by trivial⟩

/-- Popping a request context that is not the current one fails with the
Popped wrong request context AssertionError, after cvReq has already
been reset to the token of the popped object (stated for a token pair
that recorded no implicit app context). -/
theorem reqPop_wrong_ctx (w : World) (j k : Nat) (t : Option Nat)
    (hcv : w.cvReq = some k) (hne : k ≠ j)
    (htok : (w.reqs.getD j dfltReq).tokens.getLast? = some (t, none)) :
    (reqCtxPop w j).2 = some .wrongReqCtx ∧ (reqCtxPop w j).1.cvReq = t := by
  simp only [reqCtxPop, apply_ite World.cvReq, emit_cvReq, ite_self, hcv, htok]
  simp [hne]

theorem current_app_after_appPush (w : World) (i : Nat)
    (hi : i < w.apps.length) :
    current_app (appCtxPush w i) = .ok ((w.apps.getD i dfltApp).app) := by
  have h2 : (appCtxPush w i).apps.getD i dfltApp
      = { w.apps.getD i dfltApp with
          tokens := (w.apps.getD i dfltApp).tokens ++ [w.cvApp] } := by
    rw [appCtxPush_apps]
    exact getD_set_self _ _ _ _ hi
  simp only [current_app, appCtxPush_cvApp, h2]

theorem g_after_appPush (w : World) (i : Nat) (hi : i < w.apps.length) :
    g (appCtxPush w i) = .ok ((w.apps.getD i dfltApp).gId) := by
  have h2 : (appCtxPush w i).apps.getD i dfltApp
      = { w.apps.getD i dfltApp with
          tokens := (w.apps.getD i dfltApp).tokens ++ [w.cvApp] } := by
    rw [appCtxPush_apps]
    exact getD_set_self _ _ _ _ hi
  simp only [g, appCtxPush_cvApp, h2]

theorem request_after_reqPush (w : World) (j : Nat) (o : Option Nat)
    (hj : j < w.reqs.length) :
    request (reqCtxPush w j o) = .ok ((w.reqs.getD j dfltReq).req) := by
  by_cases h : needsFreshAppCtx w ((w.reqs.getD j dfltReq).app)
  · rw [reqCtxPush_eq_fresh w j o h]
    simp only [request]
    rw [getD_set_self _ _ _ _ hj]
  · rw [reqCtxPush_eq_stale w j o (by simpa using h)]
    simp only [request]
    rw [getD_set_self _ _ _ _ hj]

theorem session_after_reqPush (w : World) (j : Nat) (o : Option Nat)
    (hj : j < w.reqs.length) :
    session (reqCtxPush w j o)
      = .ok (openedSession ((w.reqs.getD j dfltReq).sess) o) := by
  by_cases h : needsFreshAppCtx w ((w.reqs.getD j dfltReq).app)
  · rw [reqCtxPush_eq_fresh w j o h]
    simp only [session]
    rw [getD_set_self _ _ _ _ hj]
  · rw [reqCtxPush_eq_stale w j o (by simpa using h)]
    simp only [session]
    rw [getD_set_self _ _ _ _ hj]

/-! ## Claim C2 -/

/-- C2: whenever a context is active, each ambient global resolves to
the corresponding attribute of the most recently pushed context, i.e.
the one the context variable points to: pushing an AppContext makes
current_app and g resolve to its app and g attributes, and pushing a
RequestContext makes request and session resolve to its request and
(just-opened) session attributes; when no corresponding context is
active each proxy raises the unbound-context error instead of
returning a stale value. -/
theorem proxies_resolve_top_context :
    (∀ (w : World) (i : Nat), i < w.apps.length →
      current_app (appCtxPush w i) = .ok ((w.apps.getD i dfltApp).app) ∧
      g (appCtxPush w i) = .ok ((w.apps.getD i dfltApp).gId)) ∧
    (∀ (w : World) (j : Nat) (o : Option Nat), j < w.reqs.length →
      request (reqCtxPush w j o) = .ok ((w.reqs.getD j dfltReq).req) ∧
      session (reqCtxPush w j o)
        = .ok (openedSession ((w.reqs.getD j dfltReq).sess) o)) ∧
    (∀ w : World, w.cvApp = none →
      current_app w = .error .unboundApp ∧ g w = .error .unboundApp) ∧
    (∀ w : World, w.cvReq = none →
      request w = .error .unboundReq ∧ session w = .error .unboundReq) := by
  refine ⟨?_, ?_, ?_, ?_⟩
  · exact fun w i hi =>
      ⟨current_app_after_appPush w i hi, g_after_appPush w i hi⟩
  · exact fun w j o hj =>
      ⟨request_after_reqPush w j o hj, session_after_reqPush w j o hj⟩
  · intro w hw
    exact ⟨by simp [current_app, hw], by simp [g, hw]⟩
  · intro w hw
    exact ⟨by simp [request, hw], by simp [session, hw]⟩

def wAppSample : World := ⟨[⟨5, 7, []⟩], [], none, none, 1, []⟩

def wReqSample : World := ⟨[], [⟨5, 11, none, []⟩], none, none, 0, []⟩

theorem proxies_resolve_top_context_witness :
    (0 < wAppSample.apps.length ∧ 0 < wReqSample.reqs.length ∧
      World.empty.cvApp = none ∧ World.empty.cvReq = none) ∧
    current_app (appCtxPush wAppSample 0)
      = .ok ((wAppSample.apps.getD 0 dfltApp).app) ∧
    g (appCtxPush wAppSample 0)
      = .ok ((wAppSample.apps.getD 0 dfltApp).gId) ∧
    request (reqCtxPush wReqSample 0 (some 3))
      = .ok ((wReqSample.reqs.getD 0 dfltReq).req) ∧
    session (reqCtxPush wReqSample 0 (some 3))
      = .ok (openedSession ((wReqSample.reqs.getD 0 dfltReq).sess) (some 3)) ∧
    current_app World.empty = .error .unboundApp ∧
    request World.empty = .error .unboundReq :=
  ⟨⟨by decide, by decide, rfl, rfl⟩,
   (proxies_resolve_top_context.1 wAppSample 0 (by decide)).1,
   (proxies_resolve_top_context.1 wAppSample 0 (by decide)).2,
   (proxies_resolve_top_context.2.1 wReqSample 0 (some 3) (by decide)).1,
   (proxies_resolve_top_context.2.1 wReqSample 0 (some 3) (by decide)).2,
   (proxies_resolve_top_context.2.2.1 World.empty rfl).1,
   (proxies_resolve_top_context.2.2.2 World.empty rfl).1⟩

/-! ## Claim C3 -/

/-- C3: context push/pop obeys a LIFO stack discipline: popping an
AppContext or RequestContext right after its push succeeds and restores
the context variable that the matching push saved; and popping a
context object that is not the currently active one raises the
corresponding Popped wrong ... context AssertionError, after the
context variable has already been reset to the saved token. -/
theorem context_pop_lifo_discipline :
    (∀ (w : World) (i : Nat), i < w.apps.length →
      (appCtxPop (appCtxPush w i) i).2 = none ∧
      (appCtxPop (appCtxPush w i) i).1.cvApp = w.cvApp) ∧
    (∀ (w : World) (j : Nat) (o : Option Nat), j < w.reqs.length →
      (reqCtxPop (reqCtxPush w j o) j).2 = none ∧
      (reqCtxPop (reqCtxPush w j o) j).1.cvReq = w.cvReq) ∧
    (∀ (w : World) (i k : Nat) (t : Option Nat),
      w.cvApp = some k → k ≠ i →
      (w.apps.getD i dfltApp).tokens.getLast? = some t →
      (appCtxPop w i).2 = some .wrongAppCtx ∧
      (appCtxPop w i).1.cvApp = t) ∧
    (∀ (w : World) (j k : Nat) (t : Option Nat),
      w.cvReq = some k → k ≠ j →
      (w.reqs.getD j dfltReq).tokens.getLast? = some (t, none) →
      (reqCtxPop w j).2 = some .wrongReqCtx ∧
      (reqCtxPop w j).1.cvReq = t) :=
  ⟨fun w i hi =>
    ⟨(appPush_pop_frame w i hi).1, (appPush_pop_frame w i hi).2.1⟩,
   fun w j o hj =>
    ⟨(reqPush_pop_frame w j o hj).1, (reqPush_pop_frame w j o hj).2.2.1⟩,
   appPop_wrong_ctx, reqPop_wrong_ctx⟩

def wWrongSample : World :=
  ⟨[⟨1, 0, [none]⟩, ⟨2, 1, [some 0]⟩], [⟨1, 3, none, [(none, none)]⟩],
   some 1, some 5, 2, []⟩

theorem context_pop_lifo_discipline_witness :
    (0 < wAppSample.apps.length ∧ 0 < wReqSample.reqs.length ∧
      wWrongSample.cvApp = some 1 ∧ (1 : Nat) ≠ 0 ∧
      (wWrongSample.apps.getD 0 dfltApp).tokens.getLast? = some none ∧
      wWrongSample.cvReq = some 5 ∧ (5 : Nat) ≠ 0 ∧
      (wWrongSample.reqs.getD 0 dfltReq).tokens.getLast?
        = some (none, none)) ∧
    (appCtxPop (appCtxPush wAppSample 0) 0).2 = none ∧
    (reqCtxPop (reqCtxPush wReqSample 0 none) 0).2 = none ∧
    (appCtxPop wWrongSample 0).2 = some .wrongAppCtx ∧
    (reqCtxPop wWrongSample 0).2 = some .wrongReqCtx :=
  ⟨⟨by decide, by decide, rfl, by decide, by decide, rfl, by decide,
    by decide⟩,
   (context_pop_lifo_discipline.1 wAppSample 0 (by decide)).1,
   (context_pop_lifo_discipline.2.1 wReqSample 0 none (by decide)).1,
   (context_pop_lifo_discipline.2.2.1 wWrongSample 0 1 none rfl
     (by decide) (by decide)).1,
   (context_pop_lifo_discipline.2.2.2 wWrongSample 0 5 none rfl
     (by decide) (by decide)).1⟩

/-! ## Claim C10 -/

/-- C10: RequestContext.push pushes a fresh AppContext for its app
exactly when no AppContext of the same app is currently active (the
first three conjuncts observe the pushed app context variable, the app
heap growth and the recorded token pair in both cases), and the
matching pop pops exactly that implicitly pushed AppContext: a balanced
push/pop pair succeeds and leaves the app-context state (the variable
and every pre-existing AppContext object) as it was before the push. -/
theorem request_ctx_push_pop_frame :
    ∀ (w : World) (j : Nat) (o : Option Nat), j < w.reqs.length →
      ((reqCtxPush w j o).cvApp =
        if needsFreshAppCtx w ((w.reqs.getD j dfltReq).app)
        then some w.apps.length else w.cvApp) ∧
      ((reqCtxPush w j o).apps.length =
        if needsFreshAppCtx w ((w.reqs.getD j dfltReq).app)
        then w.apps.length + 1 else w.apps.length) ∧
      (((reqCtxPush w j o).reqs.getD j dfltReq).tokens.getLast? =
        some (w.cvReq,
          if needsFreshAppCtx w ((w.reqs.getD j dfltReq).app)
          then some w.apps.length else none)) ∧
      (reqCtxPop (reqCtxPush w j o) j).2 = none ∧
      (reqCtxPop (reqCtxPush w j o) j).1.cvApp = w.cvApp ∧
      (reqCtxPop (reqCtxPush w j o) j).1.cvReq = w.cvReq ∧
      ∀ idx, idx < w.apps.length →
        (reqCtxPop (reqCtxPush w j o) j).1.apps.getD idx dfltApp
          = w.apps.getD idx dfltApp := by
  intro w j o hj
  refine ⟨?_, ?_, ?_, (reqPush_pop_frame w j o hj).1,
    (reqPush_pop_frame w j o hj).2.1, (reqPush_pop_frame w j o hj).2.2.1,
    (reqPush_pop_frame w j o hj).2.2.2⟩
  · by_cases h : needsFreshAppCtx w ((w.reqs.getD j dfltReq).app)
    · rw [reqCtxPush_eq_fresh w j o h, if_pos h]
    · rw [reqCtxPush_eq_stale w j o (by simpa using h), if_neg h]
  · by_cases h : needsFreshAppCtx w ((w.reqs.getD j dfltReq).app)
    · rw [reqCtxPush_eq_fresh w j o h, if_pos h]
      simp
    · rw [reqCtxPush_eq_stale w j o (by simpa using h), if_neg h]
  · by_cases h : needsFreshAppCtx w ((w.reqs.getD j dfltReq).app)
    · rw [reqCtxPush_eq_fresh w j o h, if_pos h]
      simp only [World.reqs]
      rw [getD_set_self _ _ _ _ hj]
      simp
    · rw [reqCtxPush_eq_stale w j o (by simpa using h), if_neg h]
      simp only [World.reqs]
      rw [getD_set_self _ _ _ _ hj]
      simp

theorem request_ctx_push_pop_frame_witness :
    (0 < wReqSample.reqs.length ∧ 0 < wWrongSample.reqs.length) ∧
    (reqCtxPush wReqSample 0 none).cvApp
      = (if needsFreshAppCtx wReqSample
          ((wReqSample.reqs.getD 0 dfltReq).app)
        then some wReqSample.apps.length else wReqSample.cvApp) ∧
    (reqCtxPop (reqCtxPush wReqSample 0 none) 0).2 = none ∧
    (reqCtxPop (reqCtxPush wReqSample 0 none) 0).1.cvApp
      = wReqSample.cvApp ∧
    (reqCtxPop (reqCtxPush wReqSample 0 none) 0).1.cvReq
      = wReqSample.cvReq :=
  ⟨⟨by decide, by decide⟩,
   (request_ctx_push_pop_frame wReqSample 0 none (by decide)).1,
   (request_ctx_push_pop_frame wReqSample 0 none (by decide)).2.2.2.1,
   (request_ctx_push_pop_frame wReqSample 0 none (by decide)).2.2.2.2.1,
   (request_ctx_push_pop_frame wReqSample 0 none (by decide)).2.2.2.2.2.1⟩

/-! ## Dispatch engine (src/flask/app.py)

The bodies of user hooks, view functions and error handlers are opaque
Python callables; the dispatch engine only branches on their outcomes.
A Behavior packages those outcomes: the joint result of the
preprocess_request phase, the dispatch_request phase, the
handle_user_exception call, the make_response / process_response steps
of finalize_request, the three propagation settings read by
handle_exception, and the error handler found for InternalServerError.
Calls are recorded as events, so temporal claims are about traces. -/

/-- A response object, by identity. -/
abbrev Resp := Nat

/-- A view-function return value: either an ordinary value or the
InternalServerError wrapper created in handle_exception with the
original exception recorded. -/
inductive Rv
  | val (n : Nat)
  | internalServerError (e : Err)
deriving DecidableEq

structure Behavior where
  preprocess : Except Err (Option Rv)
  dispatch : Except Err Rv
  userHandler : Err → Except Err Rv
  makeResponse : Rv → Except Err Resp
  processResponse : Resp → Except Err Resp
  propagateExceptions : Option Bool
  testing : Bool
  debug : Bool
  serverErrorHandler : Option (Rv → Except Err Rv)

/-- Flask.finalize_request (app.py lines 802-821): make_response, then
process_response and the request_finished signal inside a try; an
exception there propagates unless from_error_handler is set, in which
case the unprocessed response is returned. -/
def finalize_request (b : Behavior) (w : World) (rv : Rv)
    (fromErrorHandler : Bool) : World × Except Err Resp :=
  let w := emit .finalizeRequest w
  match b.makeResponse rv with
  | .error e => (w, .error e)
  | .ok resp =>
    match b.processResponse resp with
    | .ok r2 => (emit .requestFinished w, .ok r2)
    | .error e => if fromErrorHandler then (w, .ok resp) else (w, .error e)

/-- Flask.full_dispatch_request (app.py lines 776-800): sends
request_started, runs preprocess_request, runs dispatch_request exactly
when preprocessing returned None, routes any exception from those steps
through handle_user_exception, and finalizes the resulting value.
(The _got_first_request flag is not modelled.) -/
def full_dispatch_request (b : Behavior) (w : World) :
    World × Except Err Resp :=
  let w := emit .requestStarted w
  let w := emit .preprocessRequest w
  let tried : World × Except Err Rv :=
    match b.preprocess with
    | .ok (some rv) => (w, .ok rv)
    | .ok none =>
      let w := emit .dispatchRequest w
      (w, b.dispatch)
    | .error e => (w, .error e)
  let handled : World × Except Err Rv :=
    match tried.2 with
    | .ok rv => (tried.1, .ok rv)
    | .error e =>
      let w := emit .handleUserException tried.1
      (w, b.userHandler e)
  match handled.2 with
  | .error e => (handled.1, .error e)
  | .ok rv => finalize_request b handled.1 rv false

/-- Flask.handle_exception (app.py lines 675-720): sends
got_request_exception, resolves PROPAGATE_EXCEPTIONS (defaulting to
testing or debug), re-raises when propagation is on, and otherwise
wraps the exception in InternalServerError, lets a registered handler
process it, and finalizes with from_error_handler set. -/
def handle_exception (b : Behavior) (w : World) (e : Err) :
    World × Except Err Resp :=
  let w := emit .gotRequestException w
  let propagate := b.propagateExceptions.getD (b.testing || b.debug)
  if propagate then (w, .error e)
  else
    let handled : World × Except Err Rv :=
      match b.serverErrorHandler with
      | none => (w, .ok (.internalServerError e))
      | some h => (w, h (.internalServerError e))
    match handled.2 with
    | .error e2 => (handled.1, .error e2)
    | .ok rv => finalize_request b handled.1 rv true

/-- App.should_ignore_error (sansio/app.py lines 735-737): always
False, so wsgi_app never clears the recorded error. -/
def should_ignore_error (_e : Option Err) : Bool := false

/-- Flask.wsgi_app (app.py lines 1266-1313): creates and pushes a
request context, runs full_dispatch_request, converts an escaping
exception through handle_exception, and in the finally block pops the
context (since should_ignore_error is constantly False the error is
kept).  An exception raised by the pop in the finally block replaces
the pending result, as in Python. -/
def wsgi_app (b : Behavior) (w : World) (app req : Nat) (o : Option Nat) :
    World × Except Err Resp :=
  let alloc := requestContextNew w app req none
  let w1 := reqCtxPush alloc.1 alloc.2 o
  let dispatched :=
    match full_dispatch_request b w1 with
    | (w2, .ok r) => (w2, Except.ok r)
    | (w2, .error e) => handle_exception b w2 e
  let popped := reqCtxPop dispatched.1 alloc.2
  match popped.2 with
  | some pe => (popped.1, .error pe)
  | none => (popped.1, dispatched.2)

/-! ### Trace functions

The events a dispatch run appends depend only on the Behavior, never on
the state it starts from.  The following functions compute those
suffixes; the state lemmas below prove that each dispatch function
leaves every field but the trace unchanged and appends exactly its
trace function. -/

def finTrace (b : Behavior) (rv : Rv) : List Ev :=
  match b.makeResponse rv with
  | .error _ => [.finalizeRequest]
  | .ok resp =>
    match b.processResponse resp with
    | .ok _ => [.finalizeRequest, .requestFinished]
    | .error _ => [.finalizeRequest]

def fdrTrace (b : Behavior) : List Ev :=
  match b.preprocess with
  | .ok (some rv) => finTrace b rv
  | .ok none =>
    .dispatchRequest ::
      (match b.dispatch with
       | .ok rv => finTrace b rv
       | .error e =>
         .handleUserException ::
           (match b.userHandler e with
            | .ok rv => finTrace b rv
            | .error _ => []))
  | .error e =>
    .handleUserException ::
      (match b.userHandler e with
       | .ok rv => finTrace b rv
       | .error _ => [])

def hexcTrace (b : Behavior) (e : Err) : List Ev :=
  if b.propagateExceptions.getD (b.testing || b.debug) then []
  else
    match b.serverErrorHandler with
    | none => finTrace b (.internalServerError e)
    | some h =>
      match h (.internalServerError e) with
      | .ok rv => finTrace b rv
      | .error _ => []

theorem finalize_request_state (b : Behavior) (w : World) (rv : Rv)
    (fe : Bool) :
    (finalize_request b w rv fe).1
      = { w with events := w.events ++ finTrace b rv } := by
  unfold finalize_request finTrace
  cases hm : b.makeResponse rv with
  | error e => simp [emit, hm]
  | ok resp =>
    cases hp : b.processResponse resp with
    | ok r2 => simp [emit, hm, hp]
    | error e => cases fe <;> simp [emit, hm, hp]

theorem full_dispatch_request_state (b : Behavior) (w : World) :
    (full_dispatch_request b w).1
      = { w with events :=
            w.events ++ ([.requestStarted, .preprocessRequest]
              ++ fdrTrace b) } := by
  unfold full_dispatch_request fdrTrace
  cases hp : b.preprocess with
  | error e =>
    cases hu : b.userHandler e with
    | error e2 => simp [emit, hp, hu]
    | ok rv => simp [finalize_request_state, emit, hp, hu]
  | ok o' =>
    cases o' with
    | some rv => simp [finalize_request_state, emit, hp]
    | none =>
      cases hd : b.dispatch with
      | ok rv => simp [finalize_request_state, emit, hp, hd]
      | error e =>
        cases hu : b.userHandler e with
        | error e2 => simp [emit, hp, hd, hu]
        | ok rv => simp [finalize_request_state, emit, hp, hd, hu]

theorem handle_exception_state (b : Behavior) (w : World) (e : Err) :
    (handle_exception b w e).1
      = { w with events :=
            w.events ++ (.gotRequestException :: hexcTrace b e) } := by
  unfold handle_exception hexcTrace
  cases hpg : b.propagateExceptions.getD (b.testing || b.debug) with
  | true => simp [emit, hpg]
  | false =>
    cases hh : b.serverErrorHandler with
    | none => simp [finalize_request_state, emit, hpg, hh]
    | some h =>
      cases hres : h (.internalServerError e) with
      | error e2 => simp [emit, hpg, hh, hres]
      | ok rv => simp [finalize_request_state, emit, hpg, hh, hres]

theorem finTrace_mem (b : Behavior) (rv : Rv) :
    ∀ x ∈ finTrace b rv,
      x = Ev.finalizeRequest ∨ x = Ev.requestFinished := by
  unfold finTrace
  cases hm : b.makeResponse rv with
  | error e => simp [hm]
  | ok resp =>
    cases hp : b.processResponse resp with
    | ok r2 => simp [hm, hp]
    | error e => simp [hm, hp]

theorem fdrTrace_mem (b : Behavior) :
    ∀ x ∈ fdrTrace b,
      x = Ev.dispatchRequest ∨ x = Ev.handleUserException ∨
      x = Ev.finalizeRequest ∨ x = Ev.requestFinished := by
  unfold fdrTrace
  intro x hx
  have hfin : ∀ rv, x ∈ finTrace b rv →
      (x = Ev.dispatchRequest ∨ x = Ev.handleUserException ∨
        x = Ev.finalizeRequest ∨ x = Ev.requestFinished) := by
    intro rv h
    rcases finTrace_mem b rv x h with h | h <;> simp [h]
  cases hp : b.preprocess with
  | error e =>
    rw [hp] at hx
    rcases List.mem_cons.mp hx with rfl | hx
    · simp
    · cases hu : b.userHandler e with
      | ok rv =>
        rw [hu] at hx
        exact hfin rv hx
      | error e2 =>
        rw [hu] at hx
        simp at hx
  | ok o' =>
    cases o' with
    | some rv =>
      rw [hp] at hx
      exact hfin rv hx
    | none =>
      rw [hp] at hx
      rcases List.mem_cons.mp hx with rfl | hx
      · simp
      · cases hd : b.dispatch with
        | ok rv =>
          rw [hd] at hx
          exact hfin rv hx
        | error e =>
          rw [hd] at hx
          rcases List.mem_cons.mp hx with rfl | hx
          · simp
          · cases hu : b.userHandler e with
            | ok rv =>
              rw [hu] at hx
              exact hfin rv hx
            | error e2 =>
              rw [hu] at hx
              simp at hx

theorem hexcTrace_mem (b : Behavior) (e : Err) :
    ∀ x ∈ hexcTrace b e,
      x = Ev.finalizeRequest ∨ x = Ev.requestFinished := by
  unfold hexcTrace
  intro x hx
  cases hpg : b.propagateExceptions.getD (b.testing || b.debug) with
  | true =>
    rw [hpg] at hx
    simp at hx
  | false =>
    rw [hpg] at hx
    cases hh : b.serverErrorHandler with
    | none =>
      rw [hh] at hx
      simp at hx
      exact finTrace_mem b _ x hx
    | some h =>
      rw [hh] at hx
      simp at hx
      cases hres : h (.internalServerError e) with
      | ok rv =>
        rw [hres] at hx
        simp at hx
        exact finTrace_mem b rv x hx
      | error e2 =>
        rw [hres] at hx
        simp at hx

theorem fdrTrace_dispatch_iff (b : Behavior) :
    Ev.dispatchRequest ∈ fdrTrace b ↔ b.preprocess = .ok none := by
  have hfin : ∀ rv, Ev.dispatchRequest ∉ finTrace b rv := by
    intro rv hx
    rcases finTrace_mem b rv _ hx with h | h <;> simp at h
  unfold fdrTrace
  cases hp : b.preprocess with
  | error e =>
    simp only [hp]
    constructor
    · intro hx
      rcases List.mem_cons.mp hx with h | hx
      · exact absurd h (by simp)
      · cases hu : b.userHandler e with
        | ok rv =>
          rw [hu] at hx
          exact absurd hx (hfin rv)
        | error e2 =>
          rw [hu] at hx
          simp at hx
    · intro h
      simp at h
  | ok o' =>
    cases o' with
    | some rv =>
      simp only [hp]
      constructor
      · intro hx
        exact absurd hx (hfin rv)
      · intro h
        simp at h
    | none => simp [hp]

theorem fdrTrace_head (b : Behavior) (h : b.preprocess = .ok none) :
    (fdrTrace b).head? = some .dispatchRequest := by
  unfold fdrTrace
  rw [h]
  rfl

/-- The request context world built and pushed by wsgi_app on a fresh
task: one implicitly pushed AppContext (token none), one RequestContext
(token pair recording the implicit AppContext), both context variables
pointing at them. -/
theorem wsgi_pushed_world (app req : Nat) (o : Option Nat) :
    reqCtxPush (requestContextNew World.empty app req none).1
        (requestContextNew World.empty app req none).2 o
      = ⟨[⟨app, 0, [none]⟩],
         [⟨app, req, openedSession none o, [(none, some 0)]⟩],
         some 0, some 0, 1, [.appctxPushed]⟩ := rfl

/-- Popping the world of wsgi_pushed_world (with any session and trace)
runs request teardown, app-context teardown and the popped signal, in
that order, and unsets both context variables. -/
theorem reqCtxPop_pushed (app req gi n : Nat) (s : Option Sess)
    (E : List Ev) :
    reqCtxPop ⟨[⟨app, gi, [none]⟩], [⟨app, req, s, [(none, some 0)]⟩],
        some 0, some 0, n, E⟩ 0
      = (⟨[⟨app, gi, []⟩], [⟨app, req, s, []⟩], none, none, n,
          E ++ [.teardownRequest, .teardownAppctx, .appctxPopped]⟩,
         none) := by
  simp [reqCtxPop, appCtxPop, emit]

theorem wsgi_trace_shape (b : Behavior) (app req : Nat) (o : Option Nat) :
    ∃ mid,
      (wsgi_app b World.empty app req o).1.events
        = [.appctxPushed, .requestStarted, .preprocessRequest] ++ mid
          ++ [.teardownRequest, .teardownAppctx, .appctxPopped] ∧
      (∀ x ∈ mid, x = Ev.dispatchRequest ∨ x = Ev.handleUserException ∨
        x = Ev.finalizeRequest ∨ x = Ev.requestFinished ∨
        x = Ev.gotRequestException) ∧
      ((Ev.dispatchRequest ∈ mid) ↔ b.preprocess = .ok none) ∧
      (b.preprocess = .ok none → mid.head? = some .dispatchRequest) := by
  simp only [wsgi_app, wsgi_pushed_world app req o]
  have hW2 := full_dispatch_request_state b
    ⟨[⟨app, 0, [none]⟩],
     [⟨app, req, openedSession none o, [(none, some 0)]⟩],
     some 0, some 0, 1, [.appctxPushed]⟩
  rcases hfd : full_dispatch_request b
      ⟨[⟨app, 0, [none]⟩],
       [⟨app, req, openedSession none o, [(none, some 0)]⟩],
       some 0, some 0, 1, [.appctxPushed]⟩ with ⟨w2, r⟩
  rw [hfd] at hW2
  simp only at hW2
  cases r with
  | ok resp =>
    refine ⟨fdrTrace b, ?_, ?_, fdrTrace_dispatch_iff b, fdrTrace_head b⟩
    · subst hW2
      simp [requestContextNew, World.empty, reqCtxPop_pushed]
    · intro x hx
      rcases fdrTrace_mem b x hx with h | h | h | h <;> simp [h]
  | error e =>
    have hW3 := handle_exception_state b w2 e
    rcases hhe : handle_exception b w2 e with ⟨w3, r3⟩
    rw [hhe] at hW3
    simp only at hW3
    subst hW2
    simp only at hW3
    subst hW3
    refine ⟨fdrTrace b ++ (.gotRequestException :: hexcTrace b e),
      ?_, ?_, ?_, ?_⟩
    · simp only [hhe]
      simp [requestContextNew, World.empty, reqCtxPop_pushed]
    · intro x hx
      rcases List.mem_append.mp hx with hx | hx
      · rcases fdrTrace_mem b x hx with h | h | h | h <;> simp [h]
      · rcases List.mem_cons.mp hx with rfl | hx
        · simp
        · rcases hexcTrace_mem b e x hx with h | h <;> simp [h]
    · rw [← fdrTrace_dispatch_iff b]
      constructor
      · intro hx
        rcases List.mem_append.mp hx with hx | hx
        · exact hx
        · rcases List.mem_cons.mp hx with h | hx
          · exact absurd h (by simp)
          · rcases hexcTrace_mem b e _ hx with h | h <;> simp at h
      · intro hx
        exact List.mem_append.mpr (Or.inl hx)
    · intro hpre
      rw [List.head?_append, fdrTrace_head b hpre]
      rfl

/-- The event trace of one wsgi_app run started on a fresh task. -/
def wsgiEvents (b : Behavior) (app req : Nat) (o : Option Nat) : List Ev :=
  (wsgi_app b World.empty app req o).1.events

/-! ## Claim C1 -/

/-- C1: in every request handled through wsgi_app and
full_dispatch_request the lifecycle steps run in order: the
request_started signal strictly before preprocess_request;
dispatch_request runs exactly when preprocess_request returned None and
only after it; when preprocessing returns a non-None value the whole
dispatch is exactly the finalization of that value; finalize_request
runs after preprocessing; and the request teardown performed by
RequestContext.pop in the finally block of wsgi_app happens after any
finalization and happens on every request, also when an exception was
raised. -/
theorem wsgi_lifecycle_order (b : Behavior) (app req : Nat)
    (o : Option Nat) :
    ((wsgiEvents b app req o).indexOf Ev.requestStarted
        < (wsgiEvents b app req o).indexOf Ev.preprocessRequest) ∧
    (Ev.dispatchRequest ∈ wsgiEvents b app req o ↔
      b.preprocess = .ok none) ∧
    (Ev.dispatchRequest ∈ wsgiEvents b app req o →
      (wsgiEvents b app req o).indexOf Ev.preprocessRequest
        < (wsgiEvents b app req o).indexOf Ev.dispatchRequest) ∧
    (∀ (w : World) (rv : Rv), b.preprocess = .ok (some rv) →
      full_dispatch_request b w
        = finalize_request b
            (emit .preprocessRequest (emit .requestStarted w)) rv false) ∧
    (Ev.finalizeRequest ∈ wsgiEvents b app req o →
      (wsgiEvents b app req o).indexOf Ev.preprocessRequest
        < (wsgiEvents b app req o).indexOf Ev.finalizeRequest) ∧
    (Ev.finalizeRequest ∈ wsgiEvents b app req o →
      (wsgiEvents b app req o).indexOf Ev.finalizeRequest
        < (wsgiEvents b app req o).indexOf Ev.teardownRequest) ∧
    Ev.teardownRequest ∈ wsgiEvents b app req o := by
  obtain ⟨mid, htr, hmem, hdis, hhead⟩ := wsgi_trace_shape b app req o
  have htr' : wsgiEvents b app req o
      = [Ev.appctxPushed, Ev.requestStarted, Ev.preprocessRequest]
        ++ (mid ++
          [Ev.teardownRequest, Ev.teardownAppctx, Ev.appctxPopped]) := by
    rw [wsgiEvents, htr, List.append_assoc]
  have hrs : Ev.requestStarted ∈ ([Ev.appctxPushed, Ev.requestStarted,
      Ev.preprocessRequest] : List Ev) := by decide
  have hpr : Ev.preprocessRequest ∈ ([Ev.appctxPushed, Ev.requestStarted,
      Ev.preprocessRequest] : List Ev) := by decide
  have hdisP : Ev.dispatchRequest ∉ ([Ev.appctxPushed, Ev.requestStarted,
      Ev.preprocessRequest] : List Ev) := by decide
  have hfinP : Ev.finalizeRequest ∉ ([Ev.appctxPushed, Ev.requestStarted,
      Ev.preprocessRequest] : List Ev) := by decide
  have htdP : Ev.teardownRequest ∉ ([Ev.appctxPushed, Ev.requestStarted,
      Ev.preprocessRequest] : List Ev) := by decide
  have hdisS : Ev.dispatchRequest ∉ ([Ev.teardownRequest,
      Ev.teardownAppctx, Ev.appctxPopped] : List Ev) := by decide
  have hfinS : Ev.finalizeRequest ∉ ([Ev.teardownRequest,
      Ev.teardownAppctx, Ev.appctxPopped] : List Ev) := by decide
  have htdMid : Ev.teardownRequest ∉ mid := by
    intro hx
    rcases hmem _ hx with h | h | h | h | h <;> simp at h
  refine ⟨?_, ?_, ?_, ?_, ?_, ?_, ?_⟩
  · rw [htr', List.indexOf_append_of_mem hrs,
      List.indexOf_append_of_mem hpr]
    decide
  · rw [htr']
    constructor
    · intro hx
      rcases List.mem_append.mp hx with hx | hx
      · exact absurd hx hdisP
      · rcases List.mem_append.mp hx with hx | hx
        · exact hdis.mp hx
        · exact absurd hx hdisS
    · intro hx
      exact List.mem_append.mpr
        (Or.inr (List.mem_append.mpr (Or.inl (hdis.mpr hx))))
  · intro _
    rw [htr', List.indexOf_append_of_mem hpr,
      List.indexOf_append_of_not_mem hdisP]
    have h2 : ([Ev.appctxPushed, Ev.requestStarted,
        Ev.preprocessRequest] : List Ev).indexOf Ev.preprocessRequest
        = 2 := by decide
    have h3 : ([Ev.appctxPushed, Ev.requestStarted,
        Ev.preprocessRequest] : List Ev).length = 3 := rfl
    rw [h2, h3]
    omega
  · intro w rv hp
    simp only [full_dispatch_request, hp]
  · intro _
    rw [htr', List.indexOf_append_of_mem hpr,
      List.indexOf_append_of_not_mem hfinP]
    have h2 : ([Ev.appctxPushed, Ev.requestStarted,
        Ev.preprocessRequest] : List Ev).indexOf Ev.preprocessRequest
        = 2 := by decide
    have h3 : ([Ev.appctxPushed, Ev.requestStarted,
        Ev.preprocessRequest] : List Ev).length = 3 := rfl
    rw [h2, h3]
    omega
  · intro hfin
    have hfinMid : Ev.finalizeRequest ∈ mid := by
      rw [htr'] at hfin
      rcases List.mem_append.mp hfin with hx | hx
      · exact absurd hx hfinP
      · rcases List.mem_append.mp hx with hx | hx
        · exact hx
        · exact absurd hx hfinS
    rw [htr', List.indexOf_append_of_not_mem hfinP,
      List.indexOf_append_of_not_mem htdP,
      List.indexOf_append_of_mem hfinMid,
      List.indexOf_append_of_not_mem htdMid]
    have hlt : mid.indexOf Ev.finalizeRequest < mid.length :=
      List.indexOf_lt_length.mpr hfinMid
    have h0 : ([Ev.teardownRequest, Ev.teardownAppctx,
        Ev.appctxPopped] : List Ev).indexOf Ev.teardownRequest = 0 := by
      decide
    rw [h0]
    omega
  · rw [htr']
    exact List.mem_append.mpr
      (Or.inr (List.mem_append.mpr (Or.inr (by decide))))

/-- A concrete behavior: preprocessing passes, dispatch returns a
value, finalization succeeds. -/
def bSample : Behavior :=
  { preprocess := .ok none,
    dispatch := .ok (.val 42),
    userHandler := fun e => .error e,
    makeResponse := fun _ => .ok 7,
    processResponse := fun r => .ok r,
    propagateExceptions := some false,
    testing := false,
    debug := false,
    serverErrorHandler := none }

theorem wsgi_lifecycle_order_witness :
    bSample.preprocess = .ok none ∧
    Ev.dispatchRequest ∈ wsgiEvents bSample 1 2 none ∧
    Ev.teardownRequest ∈ wsgiEvents bSample 1 2 none :=
  ⟨rfl,
   (wsgi_lifecycle_order bSample 1 2 none).2.1.mpr rfl,
   (wsgi_lifecycle_order bSample 1 2 none).2.2.2.2.2.2⟩

/-! ## Claim C5 -/

/-- C5: an exception raised during preprocessing or dispatch is caught
inside full_dispatch_request and passed to handle_user_exception; when
the handler returns a value that value is finalized into the response,
and when the handler re-raises the exception escapes
full_dispatch_request.  An escaping exception is caught in wsgi_app
and, with exception propagation disabled (PROPAGATE_EXCEPTIONS False
and neither testing nor debug) and no registered 500 handler, is
converted by handle_exception into the finalized InternalServerError
response, so wsgi_app still returns a response and still pops the
request context (both context variables end up unset and the request
teardown ran). -/
theorem dispatch_error_handling (b : Behavior) :
    (∀ (w : World) (e : Err) (rv : Rv),
      b.preprocess = .error e → b.userHandler e = .ok rv →
      full_dispatch_request b w
        = finalize_request b (emit .handleUserException
            (emit .preprocessRequest (emit .requestStarted w))) rv false) ∧
    (∀ (w : World) (e : Err) (rv : Rv),
      b.preprocess = .ok none → b.dispatch = .error e →
      b.userHandler e = .ok rv →
      full_dispatch_request b w
        = finalize_request b (emit .handleUserException
            (emit .dispatchRequest (emit .preprocessRequest
              (emit .requestStarted w)))) rv false) ∧
    (∀ (w : World) (e e2 : Err),
      b.preprocess = .error e → b.userHandler e = .error e2 →
      (full_dispatch_request b w).2 = .error e2) ∧
    (∀ (w : World) (e e2 : Err),
      b.preprocess = .ok none → b.dispatch = .error e →
      b.userHandler e = .error e2 →
      (full_dispatch_request b w).2 = .error e2) ∧
    (∀ (app req : Nat) (o : Option Nat) (e : Err) (r0 r1 : Resp),
      b.propagateExceptions = some false →
      b.testing = false → b.debug = false →
      b.serverErrorHandler = none →
      b.makeResponse (.internalServerError e) = .ok r0 →
      b.processResponse r0 = .ok r1 →
      (full_dispatch_request b
        (reqCtxPush (requestContextNew World.empty app req none).1
          (requestContextNew World.empty app req none).2 o)).2
        = .error e →
      (wsgi_app b World.empty app req o).2 = .ok r1 ∧
      Ev.teardownRequest ∈ wsgiEvents b app req o ∧
      (wsgi_app b World.empty app req o).1.cvReq = none ∧
      (wsgi_app b World.empty app req o).1.cvApp = none) := by
  refine ⟨?_, ?_, ?_, ?_, ?_⟩
  · intro w e rv hp hu
    simp only [full_dispatch_request, hp, hu]
  · intro w e rv hp hd hu
    simp only [full_dispatch_request, hp, hd, hu]
  · intro w e e2 hp hu
    simp only [full_dispatch_request, hp, hu]
  · intro w e e2 hp hd hu
    simp only [full_dispatch_request, hp, hd, hu]
  · intro app req o e r0 r1 hpf ht hd hsh hmk hpr hesc
    have hhe : ∀ w2 : World, handle_exception b w2 e
        = (emit .requestFinished (emit .finalizeRequest
            (emit .gotRequestException w2)), .ok r1) := by
      intro w2
      simp only [handle_exception, hpf, ht, hd, hsh, Option.getD_some,
        Bool.false_eq_true, if_false, finalize_request, hmk, hpr]
    have hstate := full_dispatch_request_state b
      (reqCtxPush (requestContextNew World.empty app req none).1
        (requestContextNew World.empty app req none).2 o)
    simp only [wsgiEvents, wsgi_app]
    rcases hfd : full_dispatch_request b
        (reqCtxPush (requestContextNew World.empty app req none).1
          (requestContextNew World.empty app req none).2 o)
      with ⟨w2, r⟩
    rw [hfd] at hstate hesc
    simp only at hstate hesc
    subst hesc
    rw [wsgi_pushed_world] at hstate
    simp only at hstate
    subst hstate
    simp only [hhe]
    simp [requestContextNew, World.empty, reqCtxPop_pushed, emit]

/-- A concrete behavior whose dispatch raises and whose user-level
handler re-raises, with propagation disabled and no 500 handler. -/
def bErrSample : Behavior :=
  { preprocess := .ok none,
    dispatch := .error (.exc 9),
    userHandler := fun e => .error e,
    makeResponse := fun _ => .ok 7,
    processResponse := fun r => .ok r,
    propagateExceptions := some false,
    testing := false,
    debug := false,
    serverErrorHandler := none }

theorem dispatch_error_handling_witness :
    (bErrSample.propagateExceptions = some false ∧
      bErrSample.testing = false ∧ bErrSample.debug = false ∧
      bErrSample.serverErrorHandler = none ∧
      bErrSample.makeResponse (.internalServerError (.exc 9)) = .ok 7 ∧
      bErrSample.processResponse 7 = .ok 7 ∧
      (full_dispatch_request bErrSample
        (reqCtxPush (requestContextNew World.empty 1 2 none).1
          (requestContextNew World.empty 1 2 none).2 none)).2
        = .error (.exc 9)) ∧
    (wsgi_app bErrSample World.empty 1 2 none).2 = .ok 7 ∧
    Ev.teardownRequest ∈ wsgiEvents bErrSample 1 2 none :=
  ⟨⟨rfl, rfl, rfl, rfl, rfl, rfl, rfl⟩,
   ((dispatch_error_handling bErrSample).2.2.2.2 1 2 none (.exc 9) 7 7
     rfl rfl rfl rfl rfl rfl rfl).1,
   ((dispatch_error_handling bErrSample).2.2.2.2 1 2 none (.exc 9) 7 7
     rfl rfl rfl rfl rfl rfl rfl).2.1⟩

/-! ## Claim C6: per-task storage of the context variables

A ContextVar (globals.py lines 29 and 52) holds one independent binding
per thread or task Context; the single-task World above is the view of
one such task.  MTWorld makes the per-task bindings explicit: the
context-object heaps are shared, while cvAppT and cvReqT map each task
id to the context index bound in that task (an absent entry means the
variable is unset there).  The push operations below are AppContext.push
and RequestContext.push again, reading and writing only the calling
task's binding, which is precisely what ContextVar.set/get do. -/

@[ext]
structure MTWorld where
  apps : List AppCtxObj
  reqs : List ReqCtxObj
  cvAppT : List (Nat × Nat)
  cvReqT : List (Nat × Nat)
  nextG : Nat
deriving DecidableEq

def current_appT (w : MTWorld) (tid : Nat) : Except PErr Nat :=
  match alGet w.cvAppT tid with
  | none => .error .unboundApp
  | some i => .ok (w.apps.getD i dfltApp).app

def gT (w : MTWorld) (tid : Nat) : Except PErr Nat :=
  match alGet w.cvAppT tid with
  | none => .error .unboundApp
  | some i => .ok (w.apps.getD i dfltApp).gId

def requestT (w : MTWorld) (tid : Nat) : Except PErr Nat :=
  match alGet w.cvReqT tid with
  | none => .error .unboundReq
  | some j => .ok (w.reqs.getD j dfltReq).req

def sessionT (w : MTWorld) (tid : Nat) : Except PErr (Option Sess) :=
  match alGet w.cvReqT tid with
  | none => .error .unboundReq
  | some j => .ok (w.reqs.getD j dfltReq).sess

/-- AppContext.push performed by task tid. -/
def appCtxPushT (w : MTWorld) (tid i : Nat) : MTWorld :=
  let obj := w.apps.getD i dfltApp
  { w with
    apps := w.apps.set i
      { obj with tokens := obj.tokens ++ [alGet w.cvAppT tid] },
    cvAppT := alSet w.cvAppT tid i }

/-- The fresh-AppContext condition of RequestContext.push, evaluated in
task tid. -/
def needsFreshAppCtxT (w : MTWorld) (tid app : Nat) : Bool :=
  match alGet w.cvAppT tid with
  | none => true
  | some k => (w.apps.getD k dfltApp).app != app

/-- RequestContext.push performed by task tid. -/
def reqCtxPushT (w : MTWorld) (tid j : Nat) (openRes : Option Nat) :
    MTWorld :=
  let obj := w.reqs.getD j dfltReq
  let pushed :=
    if needsFreshAppCtxT w tid obj.app then
      let allocW : MTWorld :=
        { w with
          apps := w.apps ++ [⟨obj.app, w.nextG, []⟩],
          nextG := w.nextG + 1 }
      (appCtxPushT allocW tid w.apps.length, some w.apps.length)
    else (w, (none : Option Nat))
  let w1 := pushed.1
  { w1 with
    reqs := w1.reqs.set j
      { obj with
        tokens := obj.tokens ++ [(alGet w1.cvReqT tid, pushed.2)],
        sess := openedSession obj.sess openRes },
    cvReqT := alSet w1.cvReqT tid j }

theorem set_preserves_app_g (l : List AppCtxObj) (i : Nat)
    (obj' : AppCtxObj) (h : obj'.app = (l.getD i dfltApp).app)
    (hg : obj'.gId = (l.getD i dfltApp).gId) (k : Nat) :
    ((l.set i obj').getD k dfltApp).app = (l.getD k dfltApp).app ∧
    ((l.set i obj').getD k dfltApp).gId = (l.getD k dfltApp).gId := by
  by_cases hk : i = k
  · subst hk
    by_cases hi : i < l.length
    · rw [getD_set_self _ _ _ _ hi]
      exact ⟨h, hg⟩
    · rw [List.set_eq_of_length_le (Nat.le_of_not_lt hi)]
      exact ⟨rfl, rfl⟩
  · rw [getD_set_ne _ _ _ _ _ hk]
    exact ⟨rfl, rfl⟩

theorem reqCtxPushT_eq_fresh (w : MTWorld) (t j : Nat) (o : Option Nat)
    (h : needsFreshAppCtxT w t ((w.reqs.getD j dfltReq).app) = true) :
    reqCtxPushT w t j o =
      { apps := w.apps ++
          [⟨(w.reqs.getD j dfltReq).app, w.nextG, [alGet w.cvAppT t]⟩],
        reqs := w.reqs.set j
          { w.reqs.getD j dfltReq with
            tokens := (w.reqs.getD j dfltReq).tokens ++
              [(alGet w.cvReqT t, some w.apps.length)],
            sess := openedSession ((w.reqs.getD j dfltReq).sess) o },
        cvAppT := alSet w.cvAppT t w.apps.length,
        cvReqT := alSet w.cvReqT t j,
        nextG := w.nextG + 1 } := by
  have hF : ((w.apps ++ [(⟨(w.reqs.getD j dfltReq).app, w.nextG,
      []⟩ : AppCtxObj)]).getD w.apps.length dfltApp) =
      ⟨(w.reqs.getD j dfltReq).app, w.nextG, []⟩ := getD_concat_length _ _ _
  simp only [reqCtxPushT, h, if_true, appCtxPushT, hF]
  ext <;> simp [List.set_append_right]

theorem reqCtxPushT_eq_stale (w : MTWorld) (t j : Nat) (o : Option Nat)
    (h : needsFreshAppCtxT w t ((w.reqs.getD j dfltReq).app) = false) :
    reqCtxPushT w t j o =
      { w with
        reqs := w.reqs.set j
          { w.reqs.getD j dfltReq with
            tokens := (w.reqs.getD j dfltReq).tokens ++
              [(alGet w.cvReqT t, none)],
            sess := openedSession ((w.reqs.getD j dfltReq).sess) o },
        cvReqT := alSet w.cvReqT t j } := by
  simp only [reqCtxPushT, h, if_false, Bool.false_eq_true]

theorem current_appT_congr (w2 w : MTWorld) (tid : Nat)
    (hcv : alGet w2.cvAppT tid = alGet w.cvAppT tid)
    (happ : ∀ k, alGet w.cvAppT tid = some k →
      (w2.apps.getD k dfltApp).app = (w.apps.getD k dfltApp).app) :
    current_appT w2 tid = current_appT w tid := by
  unfold current_appT
  rw [hcv]
  cases hk : alGet w.cvAppT tid with
  | none => rfl
  | some k => exact congrArg Except.ok (happ k hk)

theorem gT_congr (w2 w : MTWorld) (tid : Nat)
    (hcv : alGet w2.cvAppT tid = alGet w.cvAppT tid)
    (hg : ∀ k, alGet w.cvAppT tid = some k →
      (w2.apps.getD k dfltApp).gId = (w.apps.getD k dfltApp).gId) :
    gT w2 tid = gT w tid := by
  unfold gT
  rw [hcv]
  cases hk : alGet w.cvAppT tid with
  | none => rfl
  | some k => exact congrArg Except.ok (hg k hk)

theorem requestT_congr (w2 w : MTWorld) (tid : Nat)
    (hcv : alGet w2.cvReqT tid = alGet w.cvReqT tid)
    (hr : ∀ k, alGet w.cvReqT tid = some k →
      (w2.reqs.getD k dfltReq).req = (w.reqs.getD k dfltReq).req) :
    requestT w2 tid = requestT w tid := by
  unfold requestT
  rw [hcv]
  cases hk : alGet w.cvReqT tid with
  | none => rfl
  | some k => exact congrArg Except.ok (hr k hk)

theorem sessionT_congr (w2 w : MTWorld) (tid : Nat)
    (hcv : alGet w2.cvReqT tid = alGet w.cvReqT tid)
    (hs : ∀ k, alGet w.cvReqT tid = some k →
      (w2.reqs.getD k dfltReq).sess = (w.reqs.getD k dfltReq).sess) :
    sessionT w2 tid = sessionT w tid := by
  unfold sessionT
  rw [hcv]
  cases hk : alGet w.cvReqT tid with
  | none => rfl
  | some k => exact congrArg Except.ok (hs k hk)

/-! ## Claim C6 -/

/-- C6: context objects are resolved through per-task context
variables, so resolution is task-local: a push performed by a different
task changes none of the four ambient globals as seen from task tid
(provided tid's own bindings reference allocated objects and the other
task pushes a different RequestContext object than the one tid has
active), while a push performed by tid itself makes tid resolve the
pushed context's attributes.  Hence a task never observes the contexts
pushed by a concurrently executing request. -/
theorem contextvar_task_isolation :
    (∀ (w : MTWorld) (tid t i : Nat), t ≠ tid →
      current_appT (appCtxPushT w t i) tid = current_appT w tid ∧
      gT (appCtxPushT w t i) tid = gT w tid ∧
      requestT (appCtxPushT w t i) tid = requestT w tid ∧
      sessionT (appCtxPushT w t i) tid = sessionT w tid) ∧
    (∀ (w : MTWorld) (tid t j : Nat) (o : Option Nat), t ≠ tid →
      (∀ k, alGet w.cvAppT tid = some k → k < w.apps.length) →
      alGet w.cvReqT tid ≠ some j →
      current_appT (reqCtxPushT w t j o) tid = current_appT w tid ∧
      gT (reqCtxPushT w t j o) tid = gT w tid ∧
      requestT (reqCtxPushT w t j o) tid = requestT w tid ∧
      sessionT (reqCtxPushT w t j o) tid = sessionT w tid) ∧
    (∀ (w : MTWorld) (tid i : Nat), i < w.apps.length →
      current_appT (appCtxPushT w tid i) tid
        = .ok ((w.apps.getD i dfltApp).app) ∧
      gT (appCtxPushT w tid i) tid
        = .ok ((w.apps.getD i dfltApp).gId)) ∧
    (∀ (w : MTWorld) (tid j : Nat) (o : Option Nat), j < w.reqs.length →
      requestT (reqCtxPushT w tid j o) tid
        = .ok ((w.reqs.getD j dfltReq).req) ∧
      sessionT (reqCtxPushT w tid j o) tid
        = .ok (openedSession ((w.reqs.getD j dfltReq).sess) o)) := by
  refine ⟨?_, ?_, ?_, ?_⟩
  · intro w tid t i ht
    have hcv : alGet (appCtxPushT w t i).cvAppT tid = alGet w.cvAppT tid :=
      alGet_alSet_ne _ _ _ _ ht
    refine ⟨current_appT_congr _ _ _ hcv ?_, gT_congr _ _ _ hcv ?_,
      rfl, rfl⟩
    · intro k _
      exact (set_preserves_app_g w.apps i
        { w.apps.getD i dfltApp with
          tokens := (w.apps.getD i dfltApp).tokens ++ [alGet w.cvAppT t] }
        rfl rfl k).1
    · intro k _
      exact (set_preserves_app_g w.apps i
        { w.apps.getD i dfltApp with
          tokens := (w.apps.getD i dfltApp).tokens ++ [alGet w.cvAppT t] }
        rfl rfl k).2
  · intro w tid t j o ht hkApp hneq
    have hkj : ∀ k, alGet w.cvReqT tid = some k → j ≠ k := by
      intro k hk hq
      exact hneq (by rw [hk, hq])
    by_cases h : needsFreshAppCtxT w t ((w.reqs.getD j dfltReq).app)
    · rw [reqCtxPushT_eq_fresh w t j o h]
      refine ⟨current_appT_congr _ _ _ (alGet_alSet_ne _ _ _ _ ht) ?_,
        gT_congr _ _ _ (alGet_alSet_ne _ _ _ _ ht) ?_,
        requestT_congr _ _ _ (alGet_alSet_ne _ _ _ _ ht) ?_,
        sessionT_congr _ _ _ (alGet_alSet_ne _ _ _ _ ht) ?_⟩
      · intro k hk
        exact congrArg AppCtxObj.app
          (getD_append_left _ _ _ _ (hkApp k hk))
      · intro k hk
        exact congrArg AppCtxObj.gId
          (getD_append_left _ _ _ _ (hkApp k hk))
      · intro k hk
        exact congrArg ReqCtxObj.req (getD_set_ne _ _ _ _ _ (hkj k hk))
      · intro k hk
        exact congrArg ReqCtxObj.sess (getD_set_ne _ _ _ _ _ (hkj k hk))
    · rw [reqCtxPushT_eq_stale w t j o (by simpa using h)]
      refine ⟨rfl, rfl,
        requestT_congr _ _ _ (alGet_alSet_ne _ _ _ _ ht) ?_,
        sessionT_congr _ _ _ (alGet_alSet_ne _ _ _ _ ht) ?_⟩
      · intro k hk
        exact congrArg ReqCtxObj.req (getD_set_ne _ _ _ _ _ (hkj k hk))
      · intro k hk
        exact congrArg ReqCtxObj.sess (getD_set_ne _ _ _ _ _ (hkj k hk))
  · intro w tid i hi
    have hcv : alGet (alSet w.cvAppT tid i) tid = some i :=
      alGet_alSet_self _ _ _
    have hset := getD_set_self w.apps i
      { w.apps.getD i dfltApp with
        tokens := (w.apps.getD i dfltApp).tokens ++ [alGet w.cvAppT tid] }
      dfltApp hi
    have happ2 := congrArg AppCtxObj.app hset
    have hg2 := congrArg AppCtxObj.gId hset
    constructor
    · simp only [current_appT, appCtxPushT, hcv]
      exact congrArg Except.ok happ2
    · simp only [gT, appCtxPushT, hcv]
      exact congrArg Except.ok hg2
  · intro w tid j o hj
    by_cases h : needsFreshAppCtxT w tid ((w.reqs.getD j dfltReq).app)
    · rw [reqCtxPushT_eq_fresh w tid j o h]
      have hcv : alGet (alSet w.cvReqT tid j) tid = some j :=
        alGet_alSet_self _ _ _
      have hset := getD_set_self w.reqs j
        { w.reqs.getD j dfltReq with
          tokens := (w.reqs.getD j dfltReq).tokens ++
            [(alGet w.cvReqT tid, some w.apps.length)],
          sess := openedSession ((w.reqs.getD j dfltReq).sess) o }
        dfltReq hj
      have hr2 := congrArg ReqCtxObj.req hset
      have hs2 := congrArg ReqCtxObj.sess hset
      constructor
      · simp only [requestT, hcv]
        exact congrArg Except.ok hr2
      · simp only [sessionT, hcv]
        exact congrArg Except.ok hs2
    · rw [reqCtxPushT_eq_stale w tid j o (by simpa using h)]
      have hcv : alGet (alSet w.cvReqT tid j) tid = some j :=
        alGet_alSet_self _ _ _
      have hset := getD_set_self w.reqs j
        { w.reqs.getD j dfltReq with
          tokens := (w.reqs.getD j dfltReq).tokens ++
            [(alGet w.cvReqT tid, none)],
          sess := openedSession ((w.reqs.getD j dfltReq).sess) o }
        dfltReq hj
      have hr2 := congrArg ReqCtxObj.req hset
      have hs2 := congrArg ReqCtxObj.sess hset
      constructor
      · simp only [requestT, hcv]
        exact congrArg Except.ok hr2
      · simp only [sessionT, hcv]
        exact congrArg Except.ok hs2

/-- Two tasks, one AppContext and one RequestContext object each. -/
def mtSample : MTWorld :=
  ⟨[⟨5, 0, []⟩, ⟨6, 1, []⟩],
   [⟨5, 21, none, []⟩, ⟨6, 22, none, []⟩],
   [], [], 2⟩

theorem contextvar_task_isolation_witness :
    ((2 : Nat) ≠ 1 ∧
      (∀ k, alGet mtSample.cvAppT 1 = some k → k < mtSample.apps.length) ∧
      alGet mtSample.cvReqT 1 ≠ some 0 ∧ 0 < mtSample.apps.length ∧
      0 < mtSample.reqs.length) ∧
    current_appT (reqCtxPushT mtSample 2 0 none) 1
      = current_appT mtSample 1 ∧
    requestT (reqCtxPushT mtSample 2 0 none) 1 = requestT mtSample 1 ∧
    current_appT (appCtxPushT mtSample 1 0) 1
      = .ok ((mtSample.apps.getD 0 dfltApp).app) ∧
    requestT (reqCtxPushT mtSample 1 0 none) 1
      = .ok ((mtSample.reqs.getD 0 dfltReq).req) :=
  ⟨⟨by decide, by intro k hk; simp [mtSample, alGet] at hk, by decide,
    by decide, by decide⟩,
   (contextvar_task_isolation.2.1 mtSample 1 2 0 none (by decide)
     (by intro k hk; simp [mtSample, alGet] at hk) (by decide)).1,
   (contextvar_task_isolation.2.1 mtSample 1 2 0 none (by decide)
     (by intro k hk; simp [mtSample, alGet] at hk) (by decide)).2.2.1,
   (contextvar_task_isolation.2.2.1 mtSample 1 0 (by decide)).1,
   (contextvar_task_isolation.2.2.2 mtSample 1 0 none (by decide)).1⟩

/-! ## Registration model (src/flask/sansio/scaffold.py, app.py,
blueprints.py)

Python strings are modelled as lists of characters (PyStr); Python
callables by an id plus their dunder name; the Scaffold hook
dictionaries are grouped in the Hooks structure shared by App and
Blueprint.  A mutating method returns its new state together with an
optional raised error, the state reflecting every mutation performed
before the raise.  CLI command registration, subdomains, url_defaults
and nested blueprints are outside the modelled claims and omitted. -/

abbrev PyStr := List Char

/-- str.lstrip with a single strip character. -/
def lstripChar (c : Char) (s : PyStr) : PyStr := s.dropWhile (· == c)

/-- str.rstrip with a single strip character. -/
def rstripChar (c : Char) (s : PyStr) : PyStr :=
  (s.reverse.dropWhile (· == c)).reverse

/-- str.upper, per character. -/
def toUpperStr (s : PyStr) : PyStr := s.map Char.toUpper

/-- A Python function object: identity and dunder name.  The modelled
functions carry no methods/required_methods/provide_automatic_options
attributes, matching plain view functions. -/
structure Func where
  fid : Nat
  fname : PyStr
deriving DecidableEq

/-- One entry of the url_map: a werkzeug Rule reduced to the fields the
claims observe. -/
structure RuleData where
  rule : PyStr
  endpoint : PyStr
  methods : List PyStr
  provide_automatic_options : Bool
deriving DecidableEq

/-- Exceptions raised by the registration code. -/
inductive RegErr
  | overwriteEndpoint      -- AssertionError in App.add_url_rule
  | expectedViewFunc       -- assert in _endpoint_from_view_func
  | dotInEndpoint          -- ValueError in Blueprint.add_url_rule
  | dotInViewFuncName      -- ValueError in Blueprint.add_url_rule
  | nameAlreadyRegistered  -- ValueError in Blueprint.register
deriving DecidableEq

/-- The per-blueprint-key error handler table:
dict of optional status code to dict of exception class (by id) to
handler. -/
abbrev ErrSpecT := List (Option Nat × List (Nat × Func))

/-- The Scaffold hook dictionaries (scaffold.py lines 119-157), keyed
by None (= the owner itself) or a blueprint name. -/
structure Hooks where
  before_request_funcs : List (Option PyStr × List Func)
  after_request_funcs : List (Option PyStr × List Func)
  teardown_request_funcs : List (Option PyStr × List Func)
  url_default_functions : List (Option PyStr × List Func)
  url_value_preprocessors : List (Option PyStr × List Func)
  template_context_processors : List (Option PyStr × List Func)
  error_handler_spec : List (Option PyStr × ErrSpecT)
deriving DecidableEq

/-- The module-level _default_template_ctx_processor, installed under
the None key of every fresh Scaffold. -/
def defaultTemplateCtxF : Func := ⟨0, "_default_template_ctx_processor".toList⟩

def emptyHooks : Hooks :=
  ⟨[], [], [], [], [], [(none, [defaultTemplateCtxF])], []⟩

/-- The App side of sansio/app.py: dispatch tables, registered
blueprints (name to blueprint id), the url_map, and the
PROVIDE_AUTOMATIC_OPTIONS config value. -/
structure App where
  view_functions : List (PyStr × Func)
  hooks : Hooks
  blueprints : List (PyStr × Nat)
  url_map : List RuleData
  paoCfg : Bool
deriving DecidableEq

/-- A deferred setup function recorded by Blueprint.add_url_rule (the
only kind of deferred the modelled demo and claims exercise). -/
inductive Deferred
  | addUrlRule (rule : PyStr) (endpoint? : Option PyStr)
      (view_func : Option Func) (methods? : Option (List PyStr))
      (pao? : Option Bool)
deriving DecidableEq

/-- The Blueprint side of sansio/blueprints.py. -/
structure Blueprint where
  bid : Nat
  name : PyStr
  url_pref : Option PyStr
  subdomain : Option PyStr
  hasStaticFolder : Bool
  staticUrlPath : PyStr
  sendStaticFile : Func
  view_functions : List (PyStr × Func)
  hooks : Hooks
  deferred_functions : List Deferred
deriving DecidableEq

/-- _endpoint_from_view_func (scaffold.py line 635): asserts the view
function is present and returns its dunder name. -/
def _endpoint_from_view_func : Option Func → Except RegErr PyStr
  | none => .error .expectedViewFunc
  | some f => .ok f.fname

/-- App.add_url_rule (sansio/app.py lines 380-447).  The endpoint
defaults to the view function name; methods default to GET (modelled
functions have no methods attribute); OPTIONS is provided automatically
when enabled by config and not already listed; the rule is added to the
url_map, and then the view function is registered unless the endpoint
is already bound to a different function, in which case the
AssertionError about overwriting an existing endpoint function is
raised with the url_map already extended. -/
def App.add_url_rule (a : App) (rule : PyStr) (endpoint? : Option PyStr)
    (view_func : Option Func) (methods? : Option (List PyStr))
    (pao? : Option Bool) : App × Option RegErr :=
  match (match endpoint? with
         | some e => Except.ok e
         | none => _endpoint_from_view_func view_func) with
  | .error er => (a, some er)
  | .ok endpoint =>
    let methods0 := match methods? with
      | some ms => ms
      | none => ["GET".toList]
    let methods1 := (methods0.map toUpperStr).dedup
    let res : Bool × List PyStr :=
      match pao? with
      | some bb => (bb, methods1)
      | none =>
        if !(methods1.contains ("OPTIONS".toList)) && a.paoCfg then
          (true, methods1 ++ ["OPTIONS".toList])
        else (false, methods1)
    let a1 := { a with url_map := a.url_map ++ [⟨rule, endpoint, res.2, res.1⟩] }
    match view_func with
    | none => (a1, none)
    | some f =>
      match alGet a1.view_functions endpoint with
      | some old =>
        if old ≠ f then (a1, some .overwriteEndpoint)
        else ({ a1 with view_functions := alSet a1.view_functions endpoint f },
              none)
      | none =>
        ({ a1 with view_functions := alSet a1.view_functions endpoint f },
         none)

/-- Blueprint.add_url_rule (sansio/blueprints.py lines 451-496):
rejects dots in the endpoint or in the view function name, then records
a deferred call. -/
def Blueprint.add_url_rule (bp : Blueprint) (rule : PyStr)
    (endpoint? : Option PyStr) (view_func : Option Func)
    (methods? : Option (List PyStr)) (pao? : Option Bool) :
    Blueprint × Option RegErr :=
  if (endpoint?.getD []).contains '.' then (bp, some .dotInEndpoint)
  else if (match view_func with
           | some f => f.fname.contains '.'
           | none => false) then (bp, some .dotInViewFuncName)
  else ({ bp with deferred_functions := bp.deferred_functions ++
          [.addUrlRule rule endpoint? view_func methods? pao?] }, none)

/-- BlueprintSetupState (sansio/blueprints.py lines 34-83), restricted
to the fields the deferred calls read. -/
structure BlueprintSetupState where
  url_pref : Option PyStr
  subdomain : Option PyStr
  name : PyStr
  name_pref : PyStr
deriving DecidableEq

/-- The endpoint under which a blueprint route is registered on the
app (blueprints.py line 126): name_prefix.name.endpoint with leading
dots stripped. -/
def fullEndpoint (st : BlueprintSetupState) (endpoint : PyStr) : PyStr :=
  lstripChar '.' (st.name_pref ++ ['.'] ++ st.name ++ ['.'] ++ endpoint)

/-- BlueprintSetupState.add_url_rule (blueprints.py lines 85-130):
joins the url prefix onto the rule, derives the endpoint from the view
function when absent, and registers on the app under the full dotted
endpoint. -/
def BlueprintSetupState.add_url_rule (st : BlueprintSetupState) (a : App)
    (rule : PyStr) (endpoint? : Option PyStr) (view_func : Option Func)
    (methods? : Option (List PyStr)) (pao? : Option Bool) :
    App × Option RegErr :=
  let rule1 := match st.url_pref with
    | some p =>
      if rule ≠ [] then rstripChar '/' p ++ ['/'] ++ lstripChar '/' rule
      else p
    | none => rule
  match (match endpoint? with
         | some e => Except.ok e
         | none => _endpoint_from_view_func view_func) with
  | .error er => (a, some er)
  | .ok endpoint =>
    App.add_url_rule a rule1 (some (fullEndpoint st endpoint))
      view_func methods? pao?

/-- Runs the deferred setup functions in order, propagating the first
raised error (blueprints.py lines 338-340). -/
def runDeferred (st : BlueprintSetupState) (a : App) :
    List Deferred → App × Option RegErr
  | [] => (a, none)
  | .addUrlRule rule ep vf ms po :: rest =>
    match BlueprintSetupState.add_url_rule st a rule ep vf ms po with
    | (a1, some er) => (a1, some er)
    | (a1, none) => runDeferred st a1 rest

/-- The key under which a blueprint dict entry is merged into the app:
name for the None key, name.k otherwise (blueprints.py lines 412-413
and 419-420). -/
def prefKey (name : PyStr) : Option PyStr → PyStr
  | none => name
  | some k => name ++ ['.'] ++ k

/-- The extend helper of _merge_blueprint_funcs (blueprints.py lines
397-415): appends each blueprint entry onto the app entry under the
prefixed key (defaultdict semantics: a missing app entry is an empty
list). -/
def extendFuncs (name : PyStr)
    (bpD parentD : List (Option PyStr × List Func)) :
    List (Option PyStr × List Func) :=
  bpD.foldl
    (fun pd kv =>
      alSet pd (some (prefKey name kv.1))
        ((alGet pd (some (prefKey name kv.1))).getD [] ++ kv.2))
    parentD

/-- The error-handler copy of _merge_blueprint_funcs (lines 417-429):
the rebuilt defaultdict holds exactly the blueprint content, stored
under the prefixed key. -/
def copyErrSpec (name : PyStr)
    (bpD parentD : List (Option PyStr × ErrSpecT)) :
    List (Option PyStr × ErrSpecT) :=
  bpD.foldl (fun pd kv => alSet pd (some (prefKey name kv.1)) kv.2) parentD

/-- Blueprint._merge_blueprint_funcs (blueprints.py lines 385-449). -/
def mergeBlueprintFuncs (bp : Blueprint) (a : App) (name : PyStr) : App :=
  { a with
    view_functions :=
      bp.view_functions.foldl (fun vf kv => alSet vf kv.1 kv.2)
        a.view_functions,
    hooks :=
      { before_request_funcs := extendFuncs name
          bp.hooks.before_request_funcs a.hooks.before_request_funcs,
        after_request_funcs := extendFuncs name
          bp.hooks.after_request_funcs a.hooks.after_request_funcs,
        teardown_request_funcs := extendFuncs name
          bp.hooks.teardown_request_funcs a.hooks.teardown_request_funcs,
        url_default_functions := extendFuncs name
          bp.hooks.url_default_functions a.hooks.url_default_functions,
        url_value_preprocessors := extendFuncs name
          bp.hooks.url_value_preprocessors a.hooks.url_value_preprocessors,
        template_context_processors := extendFuncs name
          bp.hooks.template_context_processors
          a.hooks.template_context_processors,
        error_handler_spec := copyErrSpec name
          bp.hooks.error_handler_spec a.hooks.error_handler_spec } }

/-- The register options read by Blueprint.register. -/
structure RegisterOptions where
  name_pref : PyStr := []
  name? : Option PyStr := none
  url_pref? : Option PyStr := none
  subdomain? : Option PyStr := none
deriving DecidableEq

/-- The full registration name (blueprints.py lines 300-303). -/
def registeredName (bp : Blueprint) (opts : RegisterOptions) : PyStr :=
  lstripChar '.' (opts.name_pref ++ ['.'] ++ (opts.name?.getD bp.name))

/-- Blueprint.register (blueprints.py lines 293-383): rejects an
already-registered name; records the blueprint; builds the setup state;
adds the blueprint static route when it has a static folder; merges the
blueprint dicts into the app when this is the first registration of
this blueprint object or of this name; then runs the deferred setup
functions.  CLI and nested blueprint handling are not modelled. -/
def Blueprint.register (bp : Blueprint) (a : App) (opts : RegisterOptions) :
    App × Option RegErr :=
  let self_name := opts.name?.getD bp.name
  let name := registeredName bp opts
  if (alGet a.blueprints name).isSome then (a, some .nameAlreadyRegistered)
  else
    let first_bp_registration := !(a.blueprints.any (fun kv => kv.2 == bp.bid))
    let first_name_registration := (alGet a.blueprints name).isNone
    let a1 := { a with blueprints := alSet a.blueprints name bp.bid }
    let st : BlueprintSetupState :=
      { url_pref := match opts.url_pref? with
          | some p => some p
          | none => bp.url_pref,
        subdomain := match opts.subdomain? with
          | some s => some s
          | none => bp.subdomain,
        name := self_name,
        name_pref := opts.name_pref }
    let staticStep : App × Option RegErr :=
      if bp.hasStaticFolder then
        BlueprintSetupState.add_url_rule st a1
          (bp.staticUrlPath ++ "/<path:filename>".toList)
          (some ("static".toList)) (some bp.sendStaticFile) none none
      else (a1, none)
    match staticStep with
    | (a2, some er) => (a2, some er)
    | (a2, none) =>
      let a3 := if first_bp_registration || first_name_registration
        then mergeBlueprintFuncs bp a2 name else a2
      runDeferred st a3 bp.deferred_functions

/-- App.register_blueprint (sansio/app.py): delegates to the
blueprint. -/
def App.register_blueprint (a : App) (bp : Blueprint)
    (opts : RegisterOptions) : App × Option RegErr :=
  Blueprint.register bp a opts

/-- Scaffold.before_request (scaffold.py line 409): appends under the
None key. -/
def App.before_request (a : App) (f : Func) : App :=
  { a with hooks := { a.hooks with
      before_request_funcs := alSet a.hooks.before_request_funcs none
        ((alGet a.hooks.before_request_funcs none).getD [] ++ [f]) } }

/-- Scaffold.after_request (scaffold.py line 425): appends under the
None key. -/
def App.after_request (a : App) (f : Func) : App :=
  { a with hooks := { a.hooks with
      after_request_funcs := alSet a.hooks.after_request_funcs none
        ((alGet a.hooks.after_request_funcs none).getD [] ++ [f]) } }

/-! ## The bundled demo application (src/app.py, src/blue/auth.py) -/

def helloF : Func := ⟨1, "hello".toList⟩

def loginF : Func := ⟨2, "login".toList⟩

def registerF : Func := ⟨3, "register".toList⟩

def beforeReqF : Func := ⟨4, "before_request".toList⟩

def afterReqF : Func := ⟨5, "after_request".toList⟩

/-- The lambda wrapping send_static_file in Flask.__init__
(app.py line 208). -/
def staticLambdaF : Func := ⟨6, "<lambda>".toList⟩

/-- A fresh App (the sansio App state after __init__, before the
static route), with the given PROVIDE_AUTOMATIC_OPTIONS config; the
default config sets it True (app.py line 138). -/
def newApp (pao : Bool) : App := ⟨[], emptyHooks, [], [], pao⟩

/-- Blueprint auth as constructed in blue/auth.py line 4: name auth,
url_prefix /auth, no static folder. -/
def auth_bp0 : Blueprint :=
  { bid := 1, name := "auth".toList, url_pref := some ("/auth".toList),
    subdomain := none, hasStaticFolder := false, staticUrlPath := [],
    sendStaticFile := ⟨7, "send_static_file".toList⟩,
    view_functions := [], hooks := emptyHooks, deferred_functions := [] }

/-- auth_bp after its two route decorators (blue/auth.py lines 7 and
15), each with methods GET and POST. -/
def auth_bp : Blueprint :=
  ((auth_bp0.add_url_rule ("/login".toList) none (some loginF)
      (some ["GET".toList, "POST".toList]) none).1.add_url_rule
    ("/register".toList) none (some registerF)
      (some ["GET".toList, "POST".toList]) none).1

/-- Flask(dunder name) of app.py line 5: the automatic static route is
added in __init__ with endpoint static and the lambda view. -/
def demoStep0 : App × Option RegErr :=
  App.add_url_rule (newApp true) ("/static/<path:filename>".toList)
    (some ("static".toList)) (some staticLambdaF) none none

/-- app.register_blueprint(auth_bp), app.py line 6. -/
def demoStep1 : App × Option RegErr :=
  App.register_blueprint demoStep0.1 auth_bp {}

/-- The before_request hook, app.py line 9. -/
def demoStep2 : App := App.before_request demoStep1.1 beforeReqF

/-- The after_request hook, app.py line 14. -/
def demoStep3 : App := App.after_request demoStep2 afterReqF

/-- The route for / with view hello, app.py line 20. -/
def demoStep4 : App × Option RegErr :=
  App.add_url_rule demoStep3 ("/".toList) none (some helloF) none none

def demoApp : App := demoStep4.1

/-! ## Claim C7 -/

/-- C7 counterexample: the demo application does not register exactly
two routes.  Its url_map holds four rules, and even discounting the
framework's automatic static route there are three user routes, so the
count is not two under either reading. -/
theorem demo_not_two_routes :
    demoApp.url_map.length = 4 ∧
    (demoApp.url_map.filter
      (fun r => r.endpoint ≠ "static".toList)).length = 3 ∧
    ¬ demoApp.url_map.length = 2 ∧
    ¬ (demoApp.url_map.filter
      (fun r => r.endpoint ≠ "static".toList)).length = 2 := by
  decide

/-- C7 amended: the demo application (app.py with blue/auth.py)
registers exactly three routes of its own, namely / (endpoint hello),
/auth/login (endpoint auth.login) and /auth/register (endpoint
auth.register), in addition to the automatic /static/<path:filename>
route added by Flask init, and every registration step succeeds. -/
theorem demo_three_routes_plus_static :
    demoStep0.2 = none ∧ demoStep1.2 = none ∧ demoStep4.2 = none ∧
    demoApp.url_map.map RuleData.endpoint =
      ["static".toList, "auth.login".toList, "auth.register".toList,
       "hello".toList] ∧
    demoApp.url_map.map RuleData.rule =
      ["/static/<path:filename>".toList, "/auth/login".toList,
       "/auth/register".toList, "/".toList] ∧
    alGet demoApp.view_functions ("hello".toList) = some helloF ∧
    alGet demoApp.view_functions ("auth.login".toList) = some loginF ∧
    alGet demoApp.view_functions ("auth.register".toList)
      = some registerF ∧
    alGet demoApp.view_functions ("static".toList) = some staticLambdaF := by
  decide

/-! ## Claim C9 -/

/-- C9: add_url_rule never silently rebinds an endpoint: registering a
view function under an endpoint already mapped to a different function
raises the AssertionError about overwriting an existing endpoint
function and leaves view_functions unchanged, while re-registering the
same function under the same endpoint succeeds and keeps the binding. -/
theorem add_url_rule_no_silent_rebind :
    ∀ (a : App) (rule E : PyStr) (f g : Func) (ms : Option (List PyStr))
      (po : Option Bool),
      alGet a.view_functions E = some g →
      (g ≠ f →
        (App.add_url_rule a rule (some E) (some f) ms po).2
          = some .overwriteEndpoint ∧
        (App.add_url_rule a rule (some E) (some f) ms po).1.view_functions
          = a.view_functions) ∧
      (g = f →
        (App.add_url_rule a rule (some E) (some f) ms po).2 = none ∧
        alGet (App.add_url_rule a rule (some E)
          (some f) ms po).1.view_functions E = some f) := by
  intro a rule E f g ms po hg
  constructor
  · intro hne
    simp [App.add_url_rule, hg, hne]
  · intro heq
    subst heq
    constructor
    · simp [App.add_url_rule, hg]
    · simp only [App.add_url_rule, hg]
      simp [alGet_alSet_self]

def wfApp : App :=
  { newApp true with view_functions := [("home".toList, helloF)] }

theorem add_url_rule_no_silent_rebind_witness :
    (alGet wfApp.view_functions ("home".toList) = some helloF ∧
      helloF ≠ loginF) ∧
    (App.add_url_rule wfApp ("/x".toList) (some ("home".toList))
      (some loginF) none none).2 = some .overwriteEndpoint ∧
    (App.add_url_rule wfApp ("/x".toList) (some ("home".toList))
      (some helloF) none none).2 = none :=
  ⟨⟨by decide, by decide⟩,
   ((add_url_rule_no_silent_rebind wfApp ("/x".toList) ("home".toList)
     loginF helloF none none (by decide)).1 (by decide)).1,
   ((add_url_rule_no_silent_rebind wfApp ("/x".toList) ("home".toList)
     helloF helloF none none (by decide)).2 rfl).1⟩

/-! ## Claim C4: supporting lemmas -/

theorem lstrip_append_of_ne_nil (c : Char) (s t : PyStr)
    (h : lstripChar c s ≠ []) :
    lstripChar c (s ++ t) = lstripChar c s ++ t := by
  unfold lstripChar at h ⊢
  rw [List.dropWhile_append, if_neg]
  simpa [List.isEmpty_iff] using h

theorem prefKey_inj (N : PyStr) (k1 k2 : Option PyStr)
    (h : prefKey N k1 = prefKey N k2) : k1 = k2 := by
  cases k1 with
  | none =>
    cases k2 with
    | none => rfl
    | some b =>
      exfalso
      have hlen := congrArg List.length h
      simp [prefKey] at hlen
  | some a =>
    cases k2 with
    | none =>
      exfalso
      have hlen := congrArg List.length h
      simp [prefKey] at hlen
    | some b =>
      have h2 : N ++ (['.'] ++ a) = N ++ (['.'] ++ b) := by
        simpa [prefKey, List.append_assoc] using h
      have h3 := List.append_cancel_left h2
      simp at h3
      exact congrArg some h3

theorem foldl_alSet_preserves_key {β : Type} (N : PyStr)
    (G : Option β → β → β) :
    ∀ (l pd : List (Option PyStr × β)) (K : Option PyStr),
      (∀ kv ∈ l, some (prefKey N kv.1) ≠ K) →
      alGet (l.foldl (fun pd kv =>
        alSet pd (some (prefKey N kv.1))
          (G (alGet pd (some (prefKey N kv.1))) kv.2)) pd) K = alGet pd K := by
  intro l
  induction l with
  | nil => intro pd K _; rfl
  | cons kv0 rest ih =>
    intro pd K h
    rw [List.foldl_cons]
    rw [ih _ K (fun kv hm => h kv (List.mem_cons_of_mem kv0 hm))]
    exact alGet_alSet_ne pd (some (prefKey N kv0.1)) K _
      (h kv0 (List.mem_cons_self kv0 rest))

theorem foldl_alSet_get {β : Type} (N : PyStr) (G : Option β → β → β) :
    ∀ (l pd : List (Option PyStr × β)) (k : Option PyStr) (v : β),
      (l.map Prod.fst).Nodup → alGet l k = some v →
      alGet (l.foldl (fun pd kv =>
        alSet pd (some (prefKey N kv.1))
          (G (alGet pd (some (prefKey N kv.1))) kv.2)) pd)
        (some (prefKey N k))
        = some (G (alGet pd (some (prefKey N k))) v) := by
  intro l
  induction l with
  | nil =>
    intro pd k v _ hget
    simp [alGet] at hget
  | cons kv0 rest ih =>
    intro pd k v hnd hget
    obtain ⟨k0, v0⟩ := kv0
    simp only [List.map_cons, List.nodup_cons] at hnd
    by_cases hk : k0 = k
    · subst hk
      have hv : v0 = v := by
        simp [alGet] at hget
        exact hget
      subst hv
      have hdist : ∀ kv ∈ rest,
          some (prefKey N kv.1) ≠ (some (prefKey N k0) : Option PyStr) := by
        intro kv hm hcontra
        have h2 : kv.1 = k0 := prefKey_inj N kv.1 k0 (Option.some.inj hcontra)
        exact hnd.1 (h2 ▸ List.mem_map_of_mem Prod.fst hm)
      rw [List.foldl_cons]
      exact (foldl_alSet_preserves_key N G rest _ _ hdist).trans
        (alGet_alSet_self pd (some (prefKey N k0)) _)
    · have hget' : alGet rest k = some v := by
        simp [alGet, hk] at hget
        exact hget
      have hne : (some (prefKey N k0) : Option PyStr) ≠ some (prefKey N k) := by
        intro hcontra
        exact hk (prefKey_inj N k0 k (Option.some.inj hcontra))
      rw [List.foldl_cons]
      rw [ih _ k v hnd.2 hget']
      rw [alGet_alSet_ne pd (some (prefKey N k0)) (some (prefKey N k)) _ hne]

theorem addUrl_core_inv (a : App) (r E : PyStr) (g : Func)
    (ms : Option (List PyStr)) (po : Option Bool) :
    (App.add_url_rule a r (some E) (some g) ms po).1.hooks = a.hooks ∧
    (App.add_url_rule a r (some E) (some g) ms po).1.blueprints
      = a.blueprints := by
  cases hg : alGet a.view_functions E with
  | none => constructor <;> simp [App.add_url_rule, hg]
  | some old =>
    by_cases hog : old = g
    · constructor <;> simp [App.add_url_rule, hg, hog]
    · constructor <;> simp [App.add_url_rule, hg, hog]

theorem addUrl_inv (a : App) (r : PyStr) (ep : Option PyStr)
    (vf : Option Func) (ms : Option (List PyStr)) (po : Option Bool) :
    (App.add_url_rule a r ep vf ms po).1.hooks = a.hooks ∧
    (App.add_url_rule a r ep vf ms po).1.blueprints = a.blueprints := by
  cases ep with
  | some e =>
    cases vf with
    | none => exact ⟨rfl, rfl⟩
    | some g => exact addUrl_core_inv a r e g ms po
  | none =>
    cases vf with
    | none => exact ⟨rfl, rfl⟩
    | some g => exact addUrl_core_inv a r g.fname g ms po

theorem addUrl_core_preserves (a : App) (r E : PyStr) (vf : Option Func)
    (ms : Option (List PyStr)) (po : Option Bool) (K : PyStr) (f : Func)
    (hsucc : (App.add_url_rule a r (some E) vf ms po).2 = none)
    (hK : alGet a.view_functions K = some f) :
    alGet (App.add_url_rule a r (some E) vf ms po).1.view_functions K
      = some f := by
  cases vf with
  | none => exact hK
  | some g =>
    cases hg : alGet a.view_functions E with
    | none =>
      have hres : (App.add_url_rule a r (some E) (some g) ms
          po).1.view_functions = alSet a.view_functions E g := by
        simp [App.add_url_rule, hg]
      rw [hres]
      by_cases hEK : E = K
      · subst hEK
        rw [hg] at hK
        exact Option.noConfusion hK
      · rw [alGet_alSet_ne a.view_functions E K g hEK]
        exact hK
    | some old =>
      by_cases hog : old = g
      · subst hog
        have hres : (App.add_url_rule a r (some E) (some old) ms
            po).1.view_functions = alSet a.view_functions E old := by
          simp [App.add_url_rule, hg]
        rw [hres]
        by_cases hEK : E = K
        · subst hEK
          rw [alGet_alSet_self]
          exact hg ▸ hK
        · rw [alGet_alSet_ne a.view_functions E K old hEK]
          exact hK
      · exfalso
        have h2 : (App.add_url_rule a r (some E) (some g) ms po).2
            = some .overwriteEndpoint := by
          simp [App.add_url_rule, hg, hog]
        rw [h2] at hsucc
        exact Option.noConfusion hsucc

theorem addUrl_success_preserves (a : App) (r : PyStr) (ep : Option PyStr)
    (vf : Option Func) (ms : Option (List PyStr)) (po : Option Bool)
    (K : PyStr) (f : Func)
    (hsucc : (App.add_url_rule a r ep vf ms po).2 = none)
    (hK : alGet a.view_functions K = some f) :
    alGet (App.add_url_rule a r ep vf ms po).1.view_functions K = some f := by
  cases ep with
  | some e => exact addUrl_core_preserves a r e vf ms po K f hsucc hK
  | none =>
    cases vf with
    | none => exact Option.noConfusion hsucc
    | some g => exact addUrl_core_preserves a r g.fname (some g) ms po K f hsucc hK

theorem addUrl_core_binds (a : App) (r E : PyStr) (f : Func)
    (ms : Option (List PyStr)) (po : Option Bool)
    (hsucc : (App.add_url_rule a r (some E) (some f) ms po).2 = none) :
    alGet (App.add_url_rule a r (some E) (some f) ms po).1.view_functions E
      = some f := by
  cases hg : alGet a.view_functions E with
  | none =>
    have hres : (App.add_url_rule a r (some E) (some f) ms
        po).1.view_functions = alSet a.view_functions E f := by
      simp [App.add_url_rule, hg]
    rw [hres, alGet_alSet_self]
  | some old =>
    by_cases hof : old = f
    · subst hof
      have hres : (App.add_url_rule a r (some E) (some old) ms
          po).1.view_functions = alSet a.view_functions E old := by
        simp [App.add_url_rule, hg]
      rw [hres, alGet_alSet_self]
    · exfalso
      have h2 : (App.add_url_rule a r (some E) (some f) ms po).2
          = some .overwriteEndpoint := by
        simp [App.add_url_rule, hg, hof]
      rw [h2] at hsucc
      exact Option.noConfusion hsucc

theorem setupAdd_inv (st : BlueprintSetupState) (a : App) (rule : PyStr)
    (ep : Option PyStr) (vf : Option Func) (ms : Option (List PyStr))
    (po : Option Bool) :
    (BlueprintSetupState.add_url_rule st a rule ep vf ms po).1.hooks
      = a.hooks ∧
    (BlueprintSetupState.add_url_rule st a rule ep vf ms po).1.blueprints
      = a.blueprints := by
  cases ep with
  | some e => exact addUrl_inv a _ (some (fullEndpoint st e)) vf ms po
  | none =>
    cases vf with
    | none => exact ⟨rfl, rfl⟩
    | some g => exact addUrl_inv a _ (some (fullEndpoint st g.fname)) (some g) ms po

theorem setupAdd_success_preserves (st : BlueprintSetupState) (a : App)
    (rule : PyStr) (ep : Option PyStr) (vf : Option Func)
    (ms : Option (List PyStr)) (po : Option Bool) (K : PyStr) (f : Func)
    (hsucc : (BlueprintSetupState.add_url_rule st a rule ep vf ms po).2 = none)
    (hK : alGet a.view_functions K = some f) :
    alGet (BlueprintSetupState.add_url_rule st a rule ep vf ms
      po).1.view_functions K = some f := by
  cases ep with
  | some e =>
    exact addUrl_success_preserves a _ (some (fullEndpoint st e)) vf ms po K f
      hsucc hK
  | none =>
    cases vf with
    | none => exact Option.noConfusion hsucc
    | some g =>
      exact addUrl_success_preserves a _ (some (fullEndpoint st g.fname))
        (some g) ms po K f hsucc hK

theorem setupAdd_binds (st : BlueprintSetupState) (a : App) (rule : PyStr)
    (ep : Option PyStr) (f : Func) (ms : Option (List PyStr))
    (po : Option Bool)
    (hsucc : (BlueprintSetupState.add_url_rule st a rule ep (some f) ms
      po).2 = none) :
    alGet (BlueprintSetupState.add_url_rule st a rule ep (some f) ms
      po).1.view_functions (fullEndpoint st (ep.getD f.fname)) = some f := by
  cases ep with
  | some e => exact addUrl_core_binds a _ (fullEndpoint st e) f ms po hsucc
  | none => exact addUrl_core_binds a _ (fullEndpoint st f.fname) f ms po hsucc

theorem runDeferred_inv (st : BlueprintSetupState) (ds : List Deferred) :
    ∀ (a : App),
      (runDeferred st a ds).1.hooks = a.hooks ∧
      (runDeferred st a ds).1.blueprints = a.blueprints := by
  induction ds with
  | nil => intro a; exact ⟨rfl, rfl⟩
  | cons d rest ih =>
    intro a
    cases d with
    | addUrlRule rule ep vf ms po =>
      have hsetup := setupAdd_inv st a rule ep vf ms po
      cases hss : BlueprintSetupState.add_url_rule st a rule ep vf ms po with
      | mk a1 r1 =>
        rw [hss] at hsetup
        cases r1 with
        | none =>
          have h2 := ih a1
          simp only [runDeferred, hss]
          exact ⟨h2.1.trans hsetup.1, h2.2.trans hsetup.2⟩
        | some er =>
          simp only [runDeferred, hss]
          exact ⟨hsetup.1, hsetup.2⟩

theorem runDeferred_preserves (st : BlueprintSetupState) (ds : List Deferred) :
    ∀ (a a2 : App),
      runDeferred st a ds = (a2, none) →
      ∀ (K : PyStr) (f : Func),
        alGet a.view_functions K = some f →
        alGet a2.view_functions K = some f := by
  induction ds with
  | nil =>
    intro a a2 hrun K f hK
    have h1 : a = a2 := congrArg Prod.fst hrun
    exact h1 ▸ hK
  | cons d rest ih =>
    intro a a2 hrun K f hK
    cases d with
    | addUrlRule rule ep vf ms po =>
      simp only [runDeferred] at hrun
      cases hss : BlueprintSetupState.add_url_rule st a rule ep vf ms po with
      | mk a1 r1 =>
        cases r1 with
        | some er =>
          simp only [hss] at hrun
          exact Option.noConfusion (congrArg Prod.snd hrun)
        | none =>
          simp only [hss] at hrun
          have hp := setupAdd_success_preserves st a rule ep vf ms po K f
            (by rw [hss]) hK
          rw [hss] at hp
          exact ih a1 a2 hrun K f hp

theorem runDeferred_binds (st : BlueprintSetupState) (ds : List Deferred) :
    ∀ (a a2 : App),
      runDeferred st a ds = (a2, none) →
      ∀ (rule : PyStr) (ep : Option PyStr) (f : Func)
        (ms : Option (List PyStr)) (po : Option Bool),
        Deferred.addUrlRule rule ep (some f) ms po ∈ ds →
        alGet a2.view_functions (fullEndpoint st (ep.getD f.fname)) = some f := by
  induction ds with
  | nil =>
    intro a a2 _ rule ep f ms po hmem
    exact absurd hmem (List.not_mem_nil _)
  | cons d rest ih =>
    intro a a2 hrun rule ep f ms po hmem
    cases d with
    | addUrlRule rule0 ep0 vf0 ms0 po0 =>
      simp only [runDeferred] at hrun
      cases hss : BlueprintSetupState.add_url_rule st a rule0 ep0 vf0 ms0 po0 with
      | mk a1 r1 =>
        cases r1 with
        | some er =>
          simp only [hss] at hrun
          exact Option.noConfusion (congrArg Prod.snd hrun)
        | none =>
          simp only [hss] at hrun
          rcases List.mem_cons.mp hmem with heq | hmem2
          · injection heq with h1 h2 h3 h4 h5
            subst h1
            subst h2
            subst h4
            subst h5
            subst h3
            have hb := setupAdd_binds st a rule ep f ms po (by rw [hss])
            rw [hss] at hb
            exact runDeferred_preserves st rest a1 a2 hrun _ f hb
          · exact ih a1 a2 hrun rule ep f ms po hmem2

theorem merge_run_core (bp : Blueprint) (a aS a2 : App)
    (st : BlueprintSetupState) (N : PyStr)
    (hreg : runDeferred st (mergeBlueprintFuncs bp aS N)
      bp.deferred_functions = (a2, none))
    (hhooks : aS.hooks = a.hooks)
    (hbp : aS.blueprints = alSet a.blueprints N bp.bid)
    (hnm : lstripChar '.' (st.name_pref ++ ['.'] ++ st.name) = N) :
    alGet a2.blueprints N = some bp.bid ∧
    a2.hooks = ⟨
      extendFuncs N bp.hooks.before_request_funcs
        a.hooks.before_request_funcs,
      extendFuncs N bp.hooks.after_request_funcs
        a.hooks.after_request_funcs,
      extendFuncs N bp.hooks.teardown_request_funcs
        a.hooks.teardown_request_funcs,
      extendFuncs N bp.hooks.url_default_functions
        a.hooks.url_default_functions,
      extendFuncs N bp.hooks.url_value_preprocessors
        a.hooks.url_value_preprocessors,
      extendFuncs N bp.hooks.template_context_processors
        a.hooks.template_context_processors,
      copyErrSpec N bp.hooks.error_handler_spec
        a.hooks.error_handler_spec⟩ ∧
    (N ≠ [] →
      ∀ (rule : PyStr) (ep : Option PyStr) (f : Func)
        (ms : Option (List PyStr)) (po : Option Bool),
        Deferred.addUrlRule rule ep (some f) ms po ∈ bp.deferred_functions →
        alGet a2.view_functions (N ++ ['.'] ++ ep.getD f.fname) = some f) := by
  have hi := runDeferred_inv st bp.deferred_functions
    (mergeBlueprintFuncs bp aS N)
  rw [hreg] at hi
  refine ⟨?_, ?_, ?_⟩
  · have h1 : a2.blueprints = aS.blueprints := hi.2
    rw [h1, hbp]
    exact alGet_alSet_self a.blueprints N bp.bid
  · have h1 : a2.hooks = (mergeBlueprintFuncs bp aS N).hooks := hi.1
    rw [h1, ← hhooks]
    rfl
  · intro hN rule ep f ms po hmem
    have hb := runDeferred_binds st bp.deferred_functions
      (mergeBlueprintFuncs bp aS N) a2 hreg rule ep f ms po hmem
    have hfe : fullEndpoint st (ep.getD f.fname)
        = N ++ ['.'] ++ ep.getD f.fname := by
      unfold fullEndpoint
      rw [List.append_assoc, lstrip_append_of_ne_nil]
      · rw [hnm, ← List.append_assoc]
      · rw [hnm]
        exact hN
    rw [← hfe]
    exact hb

/-! ## Claim C4 -/

/-- C4: registering a blueprint under name N merges its registrations
into the application's dispatch tables at registration time.  On a
successful registration every deferred blueprint route with endpoint E
(explicit, or derived from the view function name) binds its view
function in app.view_functions under the dotted key N.E; the blueprint
hook dictionaries (before/after/teardown request, URL value
preprocessors, URL defaults, template context processors) are extended
into the app's dictionaries and its error handler table copied, each
blueprint key k landing under the prefixed key N (for the None key) or
N.k, as the extendFuncs and copyErrSpec characterizations state; and
the name is recorded in app.blueprints.  Registering under an
already-registered name raises the ValueError and performs no merge:
the app is returned unchanged. -/
theorem blueprint_register_merges :
    (∀ (bp : Blueprint) (a : App) (opts : RegisterOptions),
      (alGet a.blueprints (registeredName bp opts)).isSome = true →
      Blueprint.register bp a opts = (a, some .nameAlreadyRegistered)) ∧
    (∀ (bp : Blueprint) (a a2 : App) (opts : RegisterOptions),
      Blueprint.register bp a opts = (a2, none) →
      alGet a2.blueprints (registeredName bp opts) = some bp.bid ∧
      a2.hooks = ⟨
        extendFuncs (registeredName bp opts) bp.hooks.before_request_funcs
          a.hooks.before_request_funcs,
        extendFuncs (registeredName bp opts) bp.hooks.after_request_funcs
          a.hooks.after_request_funcs,
        extendFuncs (registeredName bp opts) bp.hooks.teardown_request_funcs
          a.hooks.teardown_request_funcs,
        extendFuncs (registeredName bp opts) bp.hooks.url_default_functions
          a.hooks.url_default_functions,
        extendFuncs (registeredName bp opts) bp.hooks.url_value_preprocessors
          a.hooks.url_value_preprocessors,
        extendFuncs (registeredName bp opts)
          bp.hooks.template_context_processors
          a.hooks.template_context_processors,
        copyErrSpec (registeredName bp opts) bp.hooks.error_handler_spec
          a.hooks.error_handler_spec⟩ ∧
      (registeredName bp opts ≠ [] →
        ∀ (rule : PyStr) (ep : Option PyStr) (f : Func)
          (ms : Option (List PyStr)) (po : Option Bool),
          Deferred.addUrlRule rule ep (some f) ms po
            ∈ bp.deferred_functions →
          alGet a2.view_functions
            (registeredName bp opts ++ ['.'] ++ ep.getD f.fname)
            = some f)) ∧
    (∀ (N : PyStr) (bpD parentD : List (Option PyStr × List Func))
      (k : Option PyStr) (v : List Func),
      (bpD.map Prod.fst).Nodup → alGet bpD k = some v →
      alGet (extendFuncs N bpD parentD) (some (prefKey N k))
        = some ((alGet parentD (some (prefKey N k))).getD [] ++ v)) ∧
    (∀ (N : PyStr) (bpD parentD : List (Option PyStr × ErrSpecT))
      (k : Option PyStr) (v : ErrSpecT),
      (bpD.map Prod.fst).Nodup → alGet bpD k = some v →
      alGet (copyErrSpec N bpD parentD) (some (prefKey N k)) = some v) := by
  refine ⟨?_, ?_, ?_, ?_⟩
  · intro bp a opts h
    simp [Blueprint.register, h]
  · intro bp a a2 opts hreg
    simp only [Blueprint.register] at hreg
    cases halg : alGet a.blueprints (registeredName bp opts) with
    | some x =>
      rw [halg] at hreg
      simp at hreg
    | none =>
      rw [halg] at hreg
      simp only [Option.isSome_none, Bool.false_eq_true, if_false,
        Option.isNone_none, Bool.or_true, if_true] at hreg
      cases hsf : bp.hasStaticFolder with
      | false =>
        rw [hsf] at hreg
        simp only [Bool.false_eq_true, if_false] at hreg
        exact merge_run_core bp a _ a2 _ _ hreg rfl rfl rfl
      | true =>
        rw [hsf] at hreg
        simp only [if_true] at hreg
        cases hss : BlueprintSetupState.add_url_rule
          { url_pref := match opts.url_pref? with
              | some p => some p
              | none => bp.url_pref,
            subdomain := match opts.subdomain? with
              | some s => some s
              | none => bp.subdomain,
            name := opts.name?.getD bp.name,
            name_pref := opts.name_pref }
          { a with blueprints :=
              alSet a.blueprints (registeredName bp opts) bp.bid }
          (bp.staticUrlPath ++ "/<path:filename>".toList)
          (some ("static".toList)) (some bp.sendStaticFile) none none with
        | mk aS r1 =>
          have hsinv := setupAdd_inv
            { url_pref := match opts.url_pref? with
                | some p => some p
                | none => bp.url_pref,
              subdomain := match opts.subdomain? with
                | some s => some s
                | none => bp.subdomain,
              name := opts.name?.getD bp.name,
              name_pref := opts.name_pref }
            { a with blueprints :=
                alSet a.blueprints (registeredName bp opts) bp.bid }
            (bp.staticUrlPath ++ "/<path:filename>".toList)
            (some ("static".toList)) (some bp.sendStaticFile) none none
          rw [hss] at hsinv
          cases r1 with
          | some er =>
            simp only [hss] at hreg
            exact Option.noConfusion (congrArg Prod.snd hreg)
          | none =>
            simp only [hss] at hreg
            exact merge_run_core bp a aS a2 _ _ hreg hsinv.1 hsinv.2 rfl
  · intro N bpD parentD k v hnd hget
    exact foldl_alSet_get N (fun o w => o.getD [] ++ w) bpD parentD k v hnd hget
  · intro N bpD parentD k v hnd hget
    exact foldl_alSet_get N (fun _ w => w) bpD parentD k v hnd hget

theorem blueprint_register_merges_witness :
    ((alGet demoStep1.1.blueprints
        (registeredName auth_bp {})).isSome = true ∧
      Blueprint.register auth_bp demoStep1.1 {}
        = (demoStep1.1, some .nameAlreadyRegistered)) ∧
    (Blueprint.register auth_bp demoStep0.1 {} = (demoStep1.1, none) ∧
      registeredName auth_bp {} ≠ [] ∧
      Deferred.addUrlRule ("/login".toList) none (some loginF)
        (some ["GET".toList, "POST".toList]) none
        ∈ auth_bp.deferred_functions ∧
      alGet demoStep1.1.blueprints (registeredName auth_bp {})
        = some auth_bp.bid ∧
      alGet demoStep1.1.view_functions
        (registeredName auth_bp {} ++ ['.']
          ++ (none : Option PyStr).getD loginF.fname) = some loginF) ∧
    (([((none : Option PyStr), [beforeReqF])].map Prod.fst).Nodup ∧
      alGet [((none : Option PyStr), [beforeReqF])] (none : Option PyStr)
        = some [beforeReqF] ∧
      alGet (extendFuncs ("auth".toList) [(none, [beforeReqF])] [])
          (some (prefKey ("auth".toList) none))
        = some ((alGet ([] : List (Option PyStr × List Func))
            (some (prefKey ("auth".toList) none))).getD []
            ++ [beforeReqF])) ∧
    (alGet (copyErrSpec ("auth".toList)
        [(none, [(some 404, [(8, afterReqF)])])] [])
        (some (prefKey ("auth".toList) none))
      = some [(some 404, [(8, afterReqF)])]) := by
  refine ⟨⟨by decide, blueprint_register_merges.1 auth_bp demoStep1.1 {}
    (by decide)⟩, ?_, ⟨by decide, by decide, ?_⟩, ?_⟩
  · have h := blueprint_register_merges.2.1 auth_bp demoStep0.1 demoStep1.1
      {} (by decide)
    refine ⟨by decide, by decide, by decide, h.1, ?_⟩
    exact h.2.2 (by decide) ("/login".toList) none loginF
      (some ["GET".toList, "POST".toList]) none (by decide)
  · exact blueprint_register_merges.2.2.1 ("auth".toList)
      [((none : Option PyStr), [beforeReqF])] [] none [beforeReqF]
      (by decide) (by decide)
  · exact blueprint_register_merges.2.2.2 ("auth".toList)
      [(none, [(some 404, [(8, afterReqF)])])] [] none
      [(some 404, [(8, afterReqF)])] (by decide) (by decide)

/-! ## Config (src/flask/config.py) -/

/-- The Config dict (config.py line 80): a mapping from setting names
to values (by identity) plus the root_path attribute. -/
structure Config where
  store : List (PyStr × Nat)
  root_path : PyStr
deriving DecidableEq

/-- Config.__init__ (config.py lines 85-97): dict init with the given
defaults (or the empty dict when None), and the root path. -/
def Config.init (root_path : PyStr)
    (defaults : Option (List (PyStr × Nat))) : Config :=
  ⟨defaults.getD [], root_path⟩

/-- Dict lookup on the Config mapping. -/
def Config.getItem (c : Config) (k : PyStr) : Option Nat := alGet c.store k

inductive CfgErr
  | runtimeUnset
  | pyfileErr (n : Nat)
deriving DecidableEq

/-- Python truthiness of the os.environ.get result: None and the empty
string are falsy. -/
def envTruthy : Option PyStr → Bool
  | none => false
  | some s => !s.isEmpty

/-- Config.from_envvar (config.py lines 99-117): reads the environment
variable; when unset or empty it returns False if silent, otherwise
raises the RuntimeError about the variable not being set; otherwise it
delegates to from_pyfile on the named file (from_pyfile executes a
Python file and is passed in as an opaque behavior). -/
def Config.from_envvar (c : Config) (env : List (PyStr × PyStr))
    (from_pyfile : Config → PyStr → Bool → Config × Except CfgErr Bool)
    (variable_name : PyStr) (silent : Bool) :
    Config × Except CfgErr Bool :=
  let rv := alGet env variable_name
  if !(envTruthy rv) then
    if silent then (c, .ok false) else (c, .error .runtimeUnset)
  else from_pyfile c (rv.getD []) silent

/-! ## Claim C8 -/

/-- C8: Config is a mapping initialized with the given defaults (dict
lookup on a fresh Config is lookup in the defaults, empty when None),
and it loads settings from the environment and files through
from_envvar: when the named environment variable is unset or empty,
from_envvar raises RuntimeError if silent is False and returns False if
silent is True; when the variable holds a nonempty value it loads the
named file via from_pyfile. -/
theorem config_mapping_from_envvar :
    (∀ (rp : PyStr) (ds : List (PyStr × Nat)) (k : PyStr),
      Config.getItem (Config.init rp (some ds)) k = alGet ds k ∧
      Config.getItem (Config.init rp none) k = none ∧
      (Config.init rp (some ds)).root_path = rp) ∧
    (∀ (c : Config) (env : List (PyStr × PyStr))
      (fp : Config → PyStr → Bool → Config × Except CfgErr Bool)
      (v : PyStr),
      envTruthy (alGet env v) = false →
      c.from_envvar env fp v false = (c, .error .runtimeUnset) ∧
      c.from_envvar env fp v true = (c, .ok false)) ∧
    (∀ (c : Config) (env : List (PyStr × PyStr))
      (fp : Config → PyStr → Bool → Config × Except CfgErr Bool)
      (v s : PyStr) (silent : Bool),
      alGet env v = some s → s ≠ [] →
      c.from_envvar env fp v silent = fp c s silent) := by
  refine ⟨?_, ?_, ?_⟩
  · intro rp ds k
    exact ⟨rfl, rfl, rfl⟩
  · intro c env fp v hfalse
    constructor
    · simp [Config.from_envvar, hfalse]
    · simp [Config.from_envvar, hfalse]
  · intro c env fp v s silent hs hne
    have htruthy : envTruthy (some s) = true := by
      simp [envTruthy, hne]
    simp [Config.from_envvar, hs, htruthy]

def envSample : List (PyStr × PyStr) :=
  [("CFG".toList, "settings.cfg".toList)]

def fpSample : Config → PyStr → Bool → Config × Except CfgErr Bool :=
  fun c _ _ => (c, .ok true)

def cfgSample : Config :=
  Config.init ("/app".toList) (some [("DEBUG".toList, 1)])

theorem config_mapping_from_envvar_witness :
    (envTruthy (alGet envSample ("MISSING".toList)) = false ∧
      alGet envSample ("CFG".toList) = some ("settings.cfg".toList) ∧
      "settings.cfg".toList ≠ ([] : PyStr)) ∧
    Config.getItem cfgSample ("DEBUG".toList)
      = alGet [("DEBUG".toList, 1)] ("DEBUG".toList) ∧
    cfgSample.from_envvar envSample fpSample ("MISSING".toList) false
      = (cfgSample, .error .runtimeUnset) ∧
    cfgSample.from_envvar envSample fpSample ("MISSING".toList) true
      = (cfgSample, .ok false) ∧
    cfgSample.from_envvar envSample fpSample ("CFG".toList) false
      = fpSample cfgSample ("settings.cfg".toList) false :=
  ⟨⟨by decide, by decide, by decide⟩,
   (config_mapping_from_envvar.1 ("/app".toList)
     [("DEBUG".toList, 1)] ("DEBUG".toList)).1,
   (config_mapping_from_envvar.2.1 cfgSample envSample fpSample
     ("MISSING".toList) (by decide)).1,
   (config_mapping_from_envvar.2.1 cfgSample envSample fpSample
     ("MISSING".toList) (by decide)).2,
   config_mapping_from_envvar.2.2 cfgSample envSample fpSample
     ("CFG".toList) ("settings.cfg".toList) false (by decide) (by decide)⟩

end ZFlask
